import Mathlib

set_option maxHeartbeats 1000000

/-!
Verification development for the kyuudb repository: an embedded entity-relational
store with referential-integrity enforcement and delta-based incremental queries.

The development shallowly embeds three layers of the source:

* `src/src/table.rs` — the versioned row table backed by a persistent ordered map
  (`im::OrdMap`), with its `delta` diff operation;
* `src/src/db.rs` — the `RelOps` relation-attribute helpers and the incremental
  `join` combinator;
* `src/macros/src/store.rs` — the code generator for entity stores (embedded by
  instantiating the generated code on a concrete schema, following the quoted
  templates branch by branch), and `src/macros/tests/store.rs` — the hand-rolled
  `DbStore4` store with `impl_rel!` instantiated for `Track`, `Album`, `Artist`.

Ordered maps (`im::OrdMap`, `std::collections::BTreeMap`) are embedded as
association lists kept sorted by a strict key order; Rust panics (indexing a map
at an absent key, `unwrap`, failed `assert_eq!`) are embedded as `Option.none`
results; machine integers are embedded as `Nat`, with an explicit `% 2 ^ 32`
where the source relies on `u32` arithmetic.
-/

namespace KyuuDB

/-- Ordered key class for the association-list embedding of the source's ordered
maps: a decidable strict total order given as a boolean comparison. -/
class MKey (K : Type) where
  ltb : K → K → Bool
  ltb_irrefl : ∀ a, ltb a a = false
  ltb_trans : ∀ a b c, ltb a b = true → ltb b c = true → ltb a c = true
  ltb_total : ∀ a b, a ≠ b → ltb a b = true ∨ ltb b a = true

instance : MKey Nat where
  ltb a b := decide (a < b)
  ltb_irrefl a := by simp
  ltb_trans a b c := by simp only [decide_eq_true_eq]; omega
  ltb_total a b h := by simp only [decide_eq_true_eq]; omega

/-- Lexicographic order on pairs, matching `BTreeMap<(A, B), _>` iteration order. -/
instance : MKey (Nat × Nat) where
  ltb p q := decide (p.1 < q.1) || (decide (p.1 = q.1) && decide (p.2 < q.2))
  ltb_irrefl a := by simp
  ltb_trans a b c := by
    simp only [Bool.or_eq_true, Bool.and_eq_true, decide_eq_true_eq]
    omega
  ltb_total a b h := by
    by_cases h1 : a.1 = b.1
    · have h2 : a.2 ≠ b.2 := by
        intro h2; exact h (Prod.ext h1 h2)
      simp only [Bool.or_eq_true, Bool.and_eq_true, decide_eq_true_eq]
      omega
    · simp only [Bool.or_eq_true, Bool.and_eq_true, decide_eq_true_eq]
      omega

deriving instance DecidableEq for Except

/-- Association-list embedding of an ordered map; well-formed values are sorted
by `MKey.ltb` on the keys (`MWF`). -/
abbrev OMap (K V : Type) : Type := List (K × V)

/-- Lookup, as `OrdMap::get` / `BTreeMap::get`. -/
def mfind? [DecidableEq K] [MKey K] : OMap K V → K → Option V
  | [], _ => none
  | (k', v') :: t, k => if k = k' then some v' else mfind? t k

/-- Insert or replace, as `OrdMap::insert` / `BTreeMap::insert`, keeping the
list sorted. -/
def minsert [DecidableEq K] [MKey K] : OMap K V → K → V → OMap K V
  | [], k, v => [(k, v)]
  | (k', v') :: t, k, v =>
    if MKey.ltb k k' then (k, v) :: (k', v') :: t
    else if k = k' then (k, v) :: t
    else (k', v') :: minsert t k v

/-- Remove a key, as `OrdMap::remove` / `BTreeMap::remove`, a no-op when the key
is absent. -/
def merase [DecidableEq K] [MKey K] : OMap K V → K → OMap K V
  | [], _ => []
  | (k', v') :: t, k => if k = k' then t else (k', v') :: merase t k

/-- Key membership, as `contains_key`. -/
def mcontains [DecidableEq K] [MKey K] (m : OMap K V) (k : K) : Bool :=
  (mfind? m k).isSome

/-- Well-formedness: keys strictly sorted, hence duplicate-free. -/
def MWF [DecidableEq K] [MKey K] (m : OMap K V) : Prop :=
  List.Pairwise (fun a b : K × V => MKey.ltb a.1 b.1 = true) m

/-! ## Row table (`src/src/table.rs`)

`Table<T>` stores rows in an `im::OrdMap<u32, Row<T::Row>>` together with a
`next_id : u32` counter.  Entity ids (`T : Entity`) are embedded as the raw
`u32` index (`to_u32` / `from_u32` are the identity here), and `u32` arithmetic
is `Nat` arithmetic modulo `2 ^ 32`.
-/

/-- The `u32` modulus. -/
def U32 : Nat := 2 ^ 32

/-- `Row<T>` from `table.rs`: row data plus a revision counter; its `PartialEq`
compares only the revisions. -/
structure TRow (α : Type) where
  data : α
  revision : Nat
deriving DecidableEq, Repr

/-- `Delta<V>` from `table.rs`. -/
inductive Delta (V : Type) where
  | Insert (v : V)
  | Remove (v : V)
  | Update (old new : V)
deriving DecidableEq, Repr

/-- `Table<T>` from `table.rs`. -/
structure Table (α : Type) where
  data : OMap Nat (TRow α)
  next_id : Nat
deriving DecidableEq, Repr

/-- `Table::new`. -/
def Table.new : Table α := { data := [], next_id := 0 }

/-- `Table::insert`: hands out `next_id`, bumps the counter (with `u32`
wrap-around), stores the row at revision 0 and returns the id. -/
def Table.insert (t : Table α) (d : α) : Nat × Table α :=
  let id := t.next_id
  (id, { data := minsert t.data id { data := d, revision := 0 },
         next_id := (t.next_id + 1) % U32 })

/-- `Table::remove`. -/
def Table.remove (t : Table α) (id : Nat) : Option α × Table α :=
  ((mfind? t.data id).map TRow.data, { t with data := merase t.data id })

/-- `Table::get`. -/
def Table.get (t : Table α) (id : Nat) : Option α :=
  (mfind? t.data id).map TRow.data

/-- `Table::get_mut` followed by a write through the returned reference:
`get_mut` bumps the per-row revision counter. -/
def Table.modify (t : Table α) (id : Nat) (f : α → α) : Table α :=
  match mfind? t.data id with
  | none => t
  | some row =>
    { t with data := minsert t.data id { data := f row.data, revision := row.revision + 1 } }

/-- `Table::clear`: clears the rows but leaves `next_id` untouched. -/
def Table.clear (t : Table α) : Table α :=
  { t with data := [] }

/-- `Table::contains`. -/
def Table.containsId (t : Table α) (id : Nat) : Bool :=
  mcontains t.data id

/-- `Table::iter`, as the list of `(id, row data)` pairs in map order. -/
def Table.iterList (t : Table α) : List (Nat × α) :=
  t.data.map (fun p => (p.1, p.2.data))

/-- Embedding of `im::OrdMap::diff` on the two sorted row maps, already mapped
through the match in `Table::delta`: walking both maps in ascending key order
it yields `Insert` for keys only in the new map, `Remove` for keys only in the
old map, and `Update` for keys present in both whose rows differ — `Row`'s
`PartialEq` compares the revisions only. -/
def deltaAux : OMap Nat (TRow α) → OMap Nat (TRow α) → List (Delta (Nat × α))
  | [], news => news.map (fun p => Delta.Insert (p.1, p.2.data))
  | (k1, v1) :: t1, [] =>
    Delta.Remove (k1, v1.data) :: deltaAux t1 []
  | (k1, v1) :: t1, (k2, v2) :: t2 =>
    if k1 < k2 then Delta.Remove (k1, v1.data) :: deltaAux t1 ((k2, v2) :: t2)
    else if k2 < k1 then Delta.Insert (k2, v2.data) :: deltaAux ((k1, v1) :: t1) t2
    else if v1.revision = v2.revision then deltaAux t1 t2
    else Delta.Update (k1, v1.data) (k2, v2.data) :: deltaAux t1 t2
termination_by olds news => olds.length + news.length
decreasing_by all_goals simp_arith

/-- `Table::delta`: `prev.data.diff(&self.data)` mapped onto `Delta` events. -/
def Table.delta (t prev : Table α) : List (Delta (Nat × α)) :=
  deltaAux prev.data t.data

/-- The identifier a delta event is about. -/
def Delta.key : Delta (Nat × α) → Nat
  | Delta.Insert p => p.1
  | Delta.Remove p => p.1
  | Delta.Update old _ => old.1

/-! ## Table operation sequences (for the identifier-freshness claim) -/

/-- The mutating `Table` operations quantified over by the identifier claim. -/
inductive TableOp (α : Type) where
  | insert (d : α)
  | remove (id : Nat)
  | clear

/-- One step. -/
def Table.applyOp (t : Table α) : TableOp α → Table α
  | TableOp.insert d => (t.insert d).2
  | TableOp.remove id => (t.remove id).2
  | TableOp.clear => t.clear

/-- The identifiers returned by the `insert` calls of a sequence of table
operations, in call order. -/
def Table.insertedIds (t : Table α) : List (TableOp α) → List Nat
  | [] => []
  | TableOp.insert d :: ops => (t.insert d).1 :: Table.insertedIds (t.insert d).2 ops
  | TableOp.remove id :: ops => Table.insertedIds (t.remove id).2 ops
  | TableOp.clear :: ops => Table.insertedIds t.clear ops

/-- Number of `insert` operations in a sequence. -/
def TableOp.countInserts : List (TableOp α) → Nat
  | [] => 0
  | TableOp.insert _ :: ops => TableOp.countInserts ops + 1
  | _ :: ops => TableOp.countInserts ops

/-! ## Relation attribute helpers (`RelOps`, `src/src/db.rs`)

`RelOps` is implemented for `Option<T>` (optional to-one relations) and for
`Vec<T>` (to-many relations).  The claims need the `Vec` instance; the
`Option` instance is also embedded because the generated store code uses it.
-/

/-- `RelOps::is_full` for `Option<T>`. -/
def optIsFull (o : Option T) : Bool := o.isSome

/-- `RelOps::is_empty` for `Option<T>`. -/
def optIsEmpty (o : Option T) : Bool := o.isNone

/-- `RelOps::insert` for `Option<T>`. -/
def optInsert (o : Option T) (i : T) : Option T :=
  let _ := o
  some i

/-- `RelOps::remove` for `Option<T>`: asserts that any present value equals the
removed index (panic — `none` result — otherwise), then clears the slot. -/
def optRemove [DecidableEq T] (o : Option T) (i : T) : Option (Option T) :=
  match o with
  | some prev => if prev = i then some none else none
  | none => some none

/-- `RelOps::is_full` for `Vec<T>`: always false. -/
def vecIsFull (v : List T) : Bool :=
  let _ := v
  false

/-- `RelOps::is_empty` for `Vec<T>`. -/
def vecIsEmpty (v : List T) : Bool := v.isEmpty

/-- `RelOps::contains` for `Vec<T>`. -/
def vecContains [DecidableEq T] (v : List T) (i : T) : Bool :=
  v.contains i

/-- `RelOps::insert` for `Vec<T>`: push the index unless already present. -/
def vecInsert [DecidableEq T] (v : List T) (i : T) : List T :=
  if vecContains v i then v else v ++ [i]

/-- `Vec::swap_remove`: overwrite position `pos` with the last element, then
pop the last element. -/
def swapRemove (v : List T) (pos : Nat) : List T :=
  match v.getLast? with
  | none => v
  | some last => (v.set pos last).dropLast

/-- `Iterator::position`: index of the first occurrence. -/
def vecPosition [DecidableEq T] : List T → T → Option Nat
  | [], _ => none
  | x :: t, i => if x = i then some 0 else (vecPosition t i).map (· + 1)

/-- `RelOps::remove` for `Vec<T>`: `swap_remove` the first occurrence, if any. -/
def vecRemove [DecidableEq T] (v : List T) (i : T) : List T :=
  match vecPosition v i with
  | some pos => swapRemove v pos
  | none => v

/-- An arbitrary interleaving of `RelOps::insert` / `RelOps::remove` calls on a
to-many relation field. -/
inductive RelOpAct (T : Type) where
  | ins (i : T)
  | rem (i : T)

/-- Run a sequence of `RelOps` calls on a `Vec`-backed relation field. -/
def runRelOps [DecidableEq T] (v : List T) : List (RelOpAct T) → List T
  | [] => v
  | RelOpAct.ins i :: ops => runRelOps (vecInsert v i) ops
  | RelOpAct.rem i :: ops => runRelOps (vecRemove v i) ops


/-! ## Incremental join (`join` in `src/src/db.rs`)

The lazy `join` combinator is generic over the left query `Q`, the relation `R`
and the database `DB`.  It is embedded at the instantiation the repository's
own examples use: the left query is `Album::query_all()`, the relation is the
Album-to-Track relation (`rel tracks: Track*.album`), and `get_rel` is the
identity, so a left item is an `(AlbumId, AlbumRow)` pair.  `R::Inverse` is the
Track-to-Album relation whose `targets` yields the track's single `album`
foreign key; `Rel::contains` is the default `targets(src).any(|t| t == dst)`.
-/

namespace JoinModel

/-- Album row: its to-many `tracks` relation field. -/
structure AlbumRow where
  name : String
  tracks : List Nat
deriving DecidableEq, Repr

/-- Track row: its required `album` foreign key. -/
structure TrackRow where
  name : String
  album : Nat
deriving DecidableEq, Repr

/-- `R::targets` for the Album-to-Track relation. -/
def relAlbumTracks_targets (r : AlbumRow) : List Nat := r.tracks

/-- `R::Inverse::targets` for the Track-to-Album relation. -/
def relTrackAlbum_targets (r : TrackRow) : List Nat := [r.album]

/-- Default `Rel::contains`: `targets(src).any(|t| t == dst)`. -/
def relTrackAlbum_contains (r : TrackRow) (dst : Nat) : Bool :=
  (relTrackAlbum_targets r).any (fun t => t = dst)

/-- The database holding the two stores (`HasStore` for both tables). -/
structure DB where
  albums : Table AlbumRow
  tracks : Table TrackRow
deriving DecidableEq, Repr

/-- The body of the `filter_map` inside `Join::delta` (db.rs:181-205): one
destination-table delta event classified against one left item. -/
def joinClassify (item : Nat × AlbumRow) (d : Delta (Nat × TrackRow)) :
    Option (Delta ((Nat × AlbumRow) × (Nat × TrackRow))) :=
  match d with
  | Delta.Insert inserted =>
    if relTrackAlbum_contains inserted.2 item.1 then some (Delta.Insert (item, inserted))
    else none
  | Delta.Remove removed =>
    if relTrackAlbum_contains removed.2 item.1 then some (Delta.Remove (item, removed))
    else none
  | Delta.Update old new =>
    let in_old := relTrackAlbum_contains old.2 item.1
    let in_new := relTrackAlbum_contains new.2 item.1
    if in_old && in_new then some (Delta.Update (item, old) (item, new))
    else if in_old then some (Delta.Remove (item, old))
    else if in_new then some (Delta.Insert (item, new))
    else none

/-- `Join::delta`: for each left item of the query over the current snapshot,
classify every delta of the destination table (`R::Dst::query_all().delta`). -/
def joinDelta (db prev : DB) : List (Delta ((Nat × AlbumRow) × (Nat × TrackRow))) :=
  db.albums.iterList.flatMap (fun item =>
    (db.tracks.delta prev.tracks).filterMap (joinClassify item))

/-- `Join::iter`: for each left item, pair it with every target of the relation. -/
def joinIter (db : DB) : List ((Nat × AlbumRow) × (Nat × TrackRow)) :=
  db.albums.iterList.flatMap (fun item =>
    (relAlbumTracks_targets item.2).filterMap (fun v =>
      (Table.get db.tracks v).map (fun r => (item, (v, r)))))

/-- Specification-side classification of a destination id `t` against a left
item, by whether the destination row is related to the left id in the old and
in the new snapshot: absent-absent drops, absent-present is an Insert,
present-absent a Remove, present-present an Update. -/
def specClassify (db prev : DB) (item : Nat × AlbumRow) (t : Nat) :
    Option (Delta ((Nat × AlbumRow) × (Nat × TrackRow))) :=
  match Table.get prev.tracks t, Table.get db.tracks t with
  | none, none => none
  | some ro, none =>
    if relTrackAlbum_contains ro item.1 then some (Delta.Remove (item, (t, ro))) else none
  | none, some rn =>
    if relTrackAlbum_contains rn item.1 then some (Delta.Insert (item, (t, rn))) else none
  | some ro, some rn =>
    match relTrackAlbum_contains ro item.1, relTrackAlbum_contains rn item.1 with
    | true, true => some (Delta.Update (item, (t, ro)) (item, (t, rn)))
    | true, false => some (Delta.Remove (item, (t, ro)))
    | false, true => some (Delta.Insert (item, (t, rn)))
    | false, false => none

/-- Move-track scenario, old snapshot: Track 10 belongs to Album 1. -/
def exampleOld : DB :=
  DB.mk
    (Table.mk [(1, TRow.mk (AlbumRow.mk "A" [10]) 0), (2, TRow.mk (AlbumRow.mk "B" []) 0)] 3)
    (Table.mk [(10, TRow.mk (TrackRow.mk "T" 1) 0)] 11)

/-- Move-track scenario, new snapshot: Track 10 was moved to Album 2 (all
touched rows got their revision bumped by `get_mut`). -/
def exampleNew : DB :=
  DB.mk
    (Table.mk [(1, TRow.mk (AlbumRow.mk "A" []) 1), (2, TRow.mk (AlbumRow.mk "B" [10]) 1)] 3)
    (Table.mk [(10, TRow.mk (TrackRow.mk "T" 2) 1)] 11)

end JoinModel

/-! ## Schema metadata (`src/macros/src/store.rs`) -/

/-- Relation multiplicities (store.rs:27-35). -/
inductive Multiplicity where
  | ZeroOrOne
  | One
  | Many
deriving DecidableEq, Repr

/-- Delete rules (store.rs:66-71). -/
inductive DeleteRule where
  | Deny
  | Nullify
  | Cascade
deriving DecidableEq, Repr

/-- Delete-rule resolution in `generate_entity_store_impls` (store.rs:339-343):
`rel.delete_rule.unwrap_or(match inv_rel.multiplicity ...)`. -/
def resolveDeleteRule (explicitRule : Option DeleteRule) (invMult : Multiplicity) : DeleteRule :=
  explicitRule.getD
    (match invMult with
     | Multiplicity.ZeroOrOne => DeleteRule.Nullify
     | Multiplicity.One => DeleteRule.Deny
     | Multiplicity.Many => DeleteRule.Nullify)


/-! ## Generated entity store (`generate_entity_store_impls`, `src/macros/src/store.rs`)

The `store!` macro emits, per entity, an `EntityStore` impl whose `insert`,
`check_remove`, `remove` and `remove_unchecked` bodies are assembled from
per-relation template fragments selected by the relation's multiplicity, its
inverse's multiplicity, and the resolved delete rule (store.rs:293-416,
495-515).  The embedding instantiates those templates, fragment by fragment, on
a concrete schema chosen to exercise every claimed behaviour:

* `Rack.shelf : Shelf` (One), inverse `Shelf.racks : Rack*` (Many), delete rule
  `Cascade`;
* `Shelf.album : Album` (One), inverse `Album.shelves : Shelf*` (Many), delete
  rule `Cascade`;
* `Album.sleeve : Sleeve?` (ZeroOrOne), inverse `Sleeve.album : Album?`
  (ZeroOrOne), delete rule `Deny`;
* `Sleeve.album : Album?` (ZeroOrOne), inverse `Album.sleeve`, delete rule
  `Deny`.

Relations of multiplicity `Many` fall into the `_ => continue` arm of the
insert-template match (store.rs:332-336) and therefore contribute no fragments
at all on their own side.  Deleting a `Rack` thus transitively cascades into
its `Shelf`'s `Album`, which is Deny-protected while a `Sleeve` references it.

The delete rules are the `Rel.delete_rule` field of the macro's schema data
(resolved through the `unwrap_or` expression embedded as `resolveDeleteRule`);
the surface syntax currently offers no way to write an explicit rule, so the
Cascade and Deny rules here are supplied as schema data to exercise the
corresponding template arms.  The per-entity `SlotMap` containers are embedded
as maps handing out fresh integer keys; `self[idx]` indexing panics on an
absent key, embedded as a `none` result.
-/

namespace Gen

/-- Error enum from `src/src/error.rs`. -/
inductive Error where
  | RelationshipDeniedDelete
  | RelationshipTooManyTargets
  | RelationshipTooFewTargets
deriving DecidableEq, Repr

/-- `RackRow`: required foreign key to a `Shelf`. -/
structure RackRow where
  shelf : Nat
deriving DecidableEq, Repr

/-- `ShelfRow`: inverse to-many field `racks` plus a required fk to an `Album`. -/
structure ShelfRow where
  racks : List Nat
  album : Nat
deriving DecidableEq, Repr

/-- `AlbumRow`: inverse to-many field `shelves` plus an optional fk to a `Sleeve`. -/
structure AlbumRow where
  shelves : List Nat
  sleeve : Option Nat
deriving DecidableEq, Repr

/-- `SleeveRow`: optional fk back to the `Album` (inverse of `Album.sleeve`). -/
structure SleeveRow where
  album : Option Nat
deriving DecidableEq, Repr

/-- A `slotmap::SlotMap`, embedded as an ordered map handing out fresh keys. -/
structure SlotMap (V : Type) where
  map : OMap Nat V
  next : Nat
deriving DecidableEq, Repr

/-- `SlotMap::insert`. -/
def SlotMap.insert (m : SlotMap V) (v : V) : Nat × SlotMap V :=
  (m.next, { map := minsert m.map m.next v, next := m.next + 1 })

/-- `SlotMap::get` / the `Index` impl (the latter panics when absent). -/
def SlotMap.get? (m : SlotMap V) (k : Nat) : Option V :=
  mfind? m.map k

/-- Write through the `IndexMut` impl at an existing key. -/
def SlotMap.set (m : SlotMap V) (k : Nat) (v : V) : SlotMap V :=
  { m with map := minsert m.map k v }

/-- `SlotMap::remove`. -/
def SlotMap.erase (m : SlotMap V) (k : Nat) : SlotMap V :=
  { m with map := merase m.map k }

/-- The generated `#store_name` struct: one slotmap per entity. -/
structure Store where
  racks : SlotMap RackRow
  shelves : SlotMap ShelfRow
  albums : SlotMap AlbumRow
  sleeves : SlotMap SleeveRow
deriving DecidableEq, Repr

/-- `Store::new` (`Default`). -/
def Store.new : Store :=
  { racks := ⟨[], 0⟩, shelves := ⟨[], 0⟩, albums := ⟨[], 0⟩, sleeves := ⟨[], 0⟩ }

/-- `EntityStore::<Rack>::insert`.  Fragment for `Rack.shelf` (One, inverse
Many): the check indexes `self[data.shelf]` (panic when absent) and tests
`RelOps::is_full` on the inverse `Vec` field, which is constantly false
(store.rs:320-331); the upkeep pushes the fresh key onto the inverse field. -/
def insertRack (st : Store) (data : RackRow) : Option (Except Error Nat × Store) :=
  match SlotMap.get? st.shelves data.shelf with
  | none => none
  | some shelfRow =>
    if vecIsFull shelfRow.racks then some (Except.error Error.RelationshipTooManyTargets, st)
    else
      let p := SlotMap.insert st.racks data
      let st2 := { st with racks := p.2 }
      match SlotMap.get? st2.shelves data.shelf with
      | none => none
      | some sr2 =>
        let sr3 := { sr2 with racks := vecInsert sr2.racks p.1 }
        some (Except.ok p.1, { st2 with shelves := SlotMap.set st2.shelves data.shelf sr3 })

/-- `EntityStore::<Shelf>::insert`.  `Shelf.racks` (Many) contributes nothing;
fragment for `Shelf.album` (One, inverse Many) as for `insertRack`. -/
def insertShelf (st : Store) (data : ShelfRow) : Option (Except Error Nat × Store) :=
  match SlotMap.get? st.albums data.album with
  | none => none
  | some albumRow =>
    if vecIsFull albumRow.shelves then some (Except.error Error.RelationshipTooManyTargets, st)
    else
      let p := SlotMap.insert st.shelves data
      let st2 := { st with shelves := p.2 }
      match SlotMap.get? st2.albums data.album with
      | none => none
      | some ar2 =>
        let ar3 := { ar2 with shelves := vecInsert ar2.shelves p.1 }
        some (Except.ok p.1, { st2 with albums := SlotMap.set st2.albums data.album ar3 })

/-- `EntityStore::<Album>::insert`.  `Album.shelves` (Many) contributes
nothing; fragment for `Album.sleeve` (ZeroOrOne, inverse ZeroOrOne,
store.rs:297-313): when the optional fk is present, a full inverse `Option`
field fails with `RelationshipTooManyTargets` before any mutation. -/
def insertAlbum (st : Store) (data : AlbumRow) : Option (Except Error Nat × Store) :=
  match data.sleeve with
  | none =>
    let p := SlotMap.insert st.albums data
    some (Except.ok p.1, { st with albums := p.2 })
  | some d =>
    match SlotMap.get? st.sleeves d with
    | none => none
    | some sleeveRow =>
      if optIsFull sleeveRow.album then some (Except.error Error.RelationshipTooManyTargets, st)
      else
        let p := SlotMap.insert st.albums data
        let st2 := { st with albums := p.2 }
        match SlotMap.get? st2.sleeves d with
        | none => none
        | some sl2 =>
          let sl3 := { sl2 with album := optInsert sl2.album p.1 }
          some (Except.ok p.1, { st2 with sleeves := SlotMap.set st2.sleeves d sl3 })

/-- `EntityStore::<Sleeve>::insert`: mirror image of `insertAlbum`. -/
def insertSleeve (st : Store) (data : SleeveRow) : Option (Except Error Nat × Store) :=
  match data.album with
  | none =>
    let p := SlotMap.insert st.sleeves data
    some (Except.ok p.1, { st with sleeves := p.2 })
  | some d =>
    match SlotMap.get? st.albums d with
    | none => none
    | some albumRow =>
      if optIsFull albumRow.sleeve then some (Except.error Error.RelationshipTooManyTargets, st)
      else
        let p := SlotMap.insert st.sleeves data
        let st2 := { st with sleeves := p.2 }
        match SlotMap.get? st2.albums d with
        | none => none
        | some al2 =>
          let al3 := { al2 with sleeve := optInsert al2.sleeve p.1 }
          some (Except.ok p.1, { st2 with albums := SlotMap.set st2.albums d al3 })

/-- `EntityStore::<Album>::check_remove`: Deny fragment for `Album.sleeve`
(store.rs:354-360): the removal is denied when the entity's own relation field
is non-empty. -/
def check_removeAlbum (st : Store) (s : Nat) : Option (Except Error Unit) :=
  match SlotMap.get? st.albums s with
  | none => none
  | some row =>
    if !(optIsEmpty row.sleeve) then some (Except.error Error.RelationshipDeniedDelete)
    else some (Except.ok ())

/-- `EntityStore::<Sleeve>::check_remove`: Deny fragment for `Sleeve.album`. -/
def check_removeSleeve (st : Store) (s : Nat) : Option (Except Error Unit) :=
  match SlotMap.get? st.sleeves s with
  | none => none
  | some row =>
    if !(optIsEmpty row.album) then some (Except.error Error.RelationshipDeniedDelete)
    else some (Except.ok ())

/-- `EntityStore::<Shelf>::check_remove`: Cascade fragment for `Shelf.album`
(One, store.rs:401-404): `let d = self[s].album; self.check_remove(d)?`. -/
def check_removeShelf (st : Store) (s : Nat) : Option (Except Error Unit) :=
  match SlotMap.get? st.shelves s with
  | none => none
  | some row => check_removeAlbum st row.album

/-- `EntityStore::<Rack>::check_remove`: Cascade fragment for `Rack.shelf`. -/
def check_removeRack (st : Store) (s : Nat) : Option (Except Error Unit) :=
  match SlotMap.get? st.racks s with
  | none => none
  | some row => check_removeShelf st row.shelf

/-- `remove_unchecked` for `Album`: `self.Album.remove(index).expect(..)`. -/
def remove_uncheckedAlbum (st : Store) (s : Nat) : Option (AlbumRow × Store) :=
  match SlotMap.get? st.albums s with
  | none => none
  | some row => some (row, { st with albums := SlotMap.erase st.albums s })

/-- `remove_unchecked` for `Sleeve`. -/
def remove_uncheckedSleeve (st : Store) (s : Nat) : Option (SleeveRow × Store) :=
  match SlotMap.get? st.sleeves s with
  | none => none
  | some row => some (row, { st with sleeves := SlotMap.erase st.sleeves s })

/-- `remove_unchecked` for `Shelf`. -/
def remove_uncheckedShelf (st : Store) (s : Nat) : Option (ShelfRow × Store) :=
  match SlotMap.get? st.shelves s with
  | none => none
  | some row => some (row, { st with shelves := SlotMap.erase st.shelves s })

/-- `remove_unchecked` for `Rack`. -/
def remove_uncheckedRack (st : Store) (s : Nat) : Option (RackRow × Store) :=
  match SlotMap.get? st.racks s with
  | none => none
  | some row => some (row, { st with racks := SlotMap.erase st.racks s })

/-- `EntityStore::<Album>::remove` (store.rs:506-511): run `check_remove`,
returning its error with the store untouched; then `remove_unchecked`; the Deny
fragment has an empty removal upkeep. -/
def removeAlbum (st : Store) (s : Nat) : Option (Except Error AlbumRow × Store) :=
  match check_removeAlbum st s with
  | none => none
  | some (Except.error e) => some (Except.error e, st)
  | some (Except.ok _) =>
    match remove_uncheckedAlbum st s with
    | none => none
    | some (data, st2) => some (Except.ok data, st2)

/-- `EntityStore::<Sleeve>::remove`. -/
def removeSleeve (st : Store) (s : Nat) : Option (Except Error SleeveRow × Store) :=
  match check_removeSleeve st s with
  | none => none
  | some (Except.error e) => some (Except.error e, st)
  | some (Except.ok _) =>
    match remove_uncheckedSleeve st s with
    | none => none
    | some (data, st2) => some (Except.ok data, st2)

/-- `EntityStore::<Shelf>::remove`: the Cascade removal upkeep for a `One`
relation is `self.remove_unchecked(data.album)` (store.rs:405-408). -/
def removeShelf (st : Store) (s : Nat) : Option (Except Error ShelfRow × Store) :=
  match check_removeShelf st s with
  | none => none
  | some (Except.error e) => some (Except.error e, st)
  | some (Except.ok _) =>
    match remove_uncheckedShelf st s with
    | none => none
    | some (data, st2) =>
      match remove_uncheckedAlbum st2 data.album with
      | none => none
      | some (_, st3) => some (Except.ok data, st3)

/-- `EntityStore::<Rack>::remove`. -/
def removeRack (st : Store) (s : Nat) : Option (Except Error RackRow × Store) :=
  match check_removeRack st s with
  | none => none
  | some (Except.error e) => some (Except.error e, st)
  | some (Except.ok _) =>
    match remove_uncheckedRack st s with
    | none => none
    | some (data, st2) =>
      match remove_uncheckedShelf st2 data.shelf with
      | none => none
      | some (_, st3) => some (Except.ok data, st3)

end Gen


/-! ## The hand-rolled store (`src/macros/tests/store.rs`)

`DbStore4` implements the same storage design with `BTreeMap`s, a change log
and macro-generated (`impl_rel!`) per-entity operations, instantiated for:

* `Track`: pk `id`, attribute `name`, required fks `album : Album` and
  `artist : Artist`, clustered by `(album, id)`;
* `Album`: pk `id`, attributes `name`, `year`, nullable fk
  `album_artist : Artist`, delete rule `cascade (Track.album)`;
* `Artist`: pk `id`, attribute `name`, delete rules `cascade (Track.artist)`
  and `nullify (Album.album_artist)`.

Entity ids are `NonZeroU32` newtypes whose `to_u32` subtracts one; they are
embedded as the `to_u32` value, a plain `Nat`, so `Default` is `0` and
`Idx::next` is `+ 1` (the embedding ignores the `u32` overflow of
`NonZeroU32::new_unchecked(id + 1)`, which is undefined behaviour in the
source and unreachable in any claim's scenario).  The unused `Playlist` entity
and its fields are omitted.  Rust panics (`unwrap`, `expect`) are embedded as
`none` results.  All three instantiations pass an empty `delete deny (..)`
list, so the macro's deny fragment (tests/store.rs:315-319, which as written
would not even type-check against the pair-keyed index it probes) expands to
nothing and is not part of this embedding.
-/

namespace TestStore

/-- The error variants used by `tests/store.rs`.  The checked-in
`src/src/error.rs` lacks `EntityNotFound` and `ForeignKeyViolation`; they are
modelled from the test file's own uses and the spec's error taxonomy. -/
inductive Error where
  | EntityNotFound
  | ForeignKeyViolation
  | RelationshipDeniedDelete
deriving DecidableEq, Repr

/-- `ChangeKind` (tests/store.rs:199-221), minus the `Playlist` variants that
the `impl_rel!` instantiations never produce. -/
inductive ChangeKind where
  | Album_Inserted (id : Nat)
  | Album_Removed (id : Nat)
  | Album_name_Inserted (id : Nat) (v : String)
  | Album_name_Removed (id : Nat) (v : String)
  | Album_year_Inserted (id : Nat) (v : Nat)
  | Album_year_Removed (id : Nat) (v : Nat)
  | Album_album_artist_Inserted (id : Nat) (v : Nat)
  | Album_album_artist_Removed (id : Nat) (v : Nat)
  | Track_Inserted (id : Nat)
  | Track_Removed (id : Nat)
  | Track_name_Inserted (id : Nat) (v : String)
  | Track_name_Removed (id : Nat) (v : String)
  | Track_album_Inserted (id : Nat) (v : Nat)
  | Track_album_Removed (id : Nat) (v : Nat)
  | Track_artist_Inserted (id : Nat) (v : Nat)
  | Track_artist_Removed (id : Nat) (v : Nat)
  | Artist_Inserted (id : Nat)
  | Artist_Removed (id : Nat)
  | Artist_name_Inserted (id : Nat) (v : String)
  | Artist_name_Removed (id : Nat) (v : String)
deriving DecidableEq, Repr

/-- A timestamped change record. -/
structure Change where
  timestamp : Nat
  kind : ChangeKind
deriving DecidableEq, Repr

/-- The append-only change log. -/
structure ChangeSet where
  changes : List Change
deriving DecidableEq, Repr

/-- `Iterator::rposition`: index of the last element satisfying the predicate. -/
def rposition (p : α → Bool) : List α → Option Nat
  | [] => none
  | x :: t =>
    match rposition p t with
    | some i => some (i + 1)
    | none => if p x then some 0 else none

/-- `ChangeSet::push`. -/
def ChangeSet.push (cs : ChangeSet) (timestamp : Nat) (change : ChangeKind) : ChangeSet :=
  { cs with changes := cs.changes ++ [{ timestamp := timestamp, kind := change }] }

/-- `ChangeSet::since` (tests/store.rs:189-192): slice from just past the last
record with a timestamp below the bound. -/
def ChangeSet.since (cs : ChangeSet) (timestamp : Nat) : List ChangeKind :=
  let last :=
    match rposition (fun c => decide (c.timestamp < timestamp)) cs.changes with
    | some i => i + 1
    | none => 0
  (cs.changes.drop last).map Change.kind

/-- `Album` row. -/
structure Album where
  id : Nat
  name : String
  year : Nat
  album_artist : Option Nat
deriving DecidableEq, Repr

/-- `Track` row. -/
structure Track where
  id : Nat
  name : String
  album : Nat
  artist : Nat
deriving DecidableEq, Repr

/-- `Artist` row. -/
structure Artist where
  id : Nat
  name : String
deriving DecidableEq, Repr

/-- `DbStore4` (tests/store.rs:223-246), without the unused `Playlist` maps. -/
structure DbStore4 where
  timestamp : Nat
  changes : ChangeSet
  Album_next_id : Nat
  Track_next_id : Nat
  Artist_next_id : Nat
  clustered_Track : OMap (Nat × Nat) Track
  pk_Track : OMap Nat (Nat × Nat)
  pk_Album : OMap Nat Album
  pk_Artist : OMap Nat Artist
  fk_Track_album : OMap (Nat × Nat) Unit
  fk_Track_artist : OMap (Nat × Nat) Unit
  fk_Album_album_artist : OMap (Nat × Nat) Unit
deriving DecidableEq, Repr

/-- `DbStore4::default`. -/
def DbStore4.empty : DbStore4 :=
  { timestamp := 0, changes := ⟨[]⟩,
    Album_next_id := 0, Track_next_id := 0, Artist_next_id := 0,
    clustered_Track := [], pk_Track := [], pk_Album := [], pk_Artist := [],
    fk_Track_album := [], fk_Track_artist := [], fk_Album_album_artist := [] }

/-- `DbStore4::next`: bump and return the transaction timestamp. -/
def DbStore4.next (db : DbStore4) : Nat × DbStore4 :=
  let t := db.timestamp + 1
  (t, { db with timestamp := t })

/-- The `range(range_helper(pk..=pk))` scan of a pair-keyed fk index: all
second (source) components whose first (destination) component matches, in
ascending order. -/
def fkRange (m : OMap (Nat × Nat) Unit) (d : Nat) : List Nat :=
  (m.filter (fun p => decide (p.1.1 = d))).map (fun p => p.1.2)

/-- `Track::fetch`: pk lookup, then the clustered-index lookup. -/
def Track.fetch (db : DbStore4) (key : Nat) : Except Error Track :=
  match mfind? db.pk_Track key with
  | none => Except.error Error.EntityNotFound
  | some v =>
    match mfind? db.clustered_Track v with
    | none => Except.error Error.EntityNotFound
    | some t => Except.ok t

/-- `Album::fetch`. -/
def Album.fetch (db : DbStore4) (key : Nat) : Except Error Album :=
  match mfind? db.pk_Album key with
  | none => Except.error Error.EntityNotFound
  | some v => Except.ok v

/-- `Artist::fetch`. -/
def Artist.fetch (db : DbStore4) (key : Nat) : Except Error Artist :=
  match mfind? db.pk_Artist key with
  | none => Except.error Error.EntityNotFound
  | some v => Except.ok v

/-- `Track::before_insert` (tests/store.rs:296-305): duplicate-pk check, then
one existence check per required foreign key, in declaration order. -/
def Track.before_insert (db : DbStore4) (inserting : Track) : Except Error Unit :=
  if mcontains db.pk_Track inserting.id then Except.error Error.EntityNotFound
  else if !(mcontains db.pk_Album inserting.album) then Except.error Error.ForeignKeyViolation
  else if !(mcontains db.pk_Artist inserting.artist) then Except.error Error.ForeignKeyViolation
  else Except.ok ()

/-- `Album::before_insert`: duplicate-pk check, then the existence check for
the nullable fk `album_artist` when present. -/
def Album.before_insert (db : DbStore4) (inserting : Album) : Except Error Unit :=
  if mcontains db.pk_Album inserting.id then Except.error Error.EntityNotFound
  else
    match inserting.album_artist with
    | some fk =>
      if !(mcontains db.pk_Artist fk) then Except.error Error.ForeignKeyViolation
      else Except.ok ()
    | none => Except.ok ()

/-- `Artist::before_insert`: only the duplicate-pk check. -/
def Artist.before_insert (db : DbStore4) (inserting : Artist) : Except Error Unit :=
  if mcontains db.pk_Artist inserting.id then Except.error Error.EntityNotFound
  else Except.ok ()

/-- `Track::before_delete`: no cascade or deny references target `Track`. -/
def Track.before_delete (db : DbStore4) (deleted : Track) : Except Error Unit :=
  let _ := db
  let _ := deleted
  Except.ok ()

/-- The cascade loop of `before_delete` (tests/store.rs:309-313): fetch each
referencing `Track` (`expect` panics when the fk index is stale) and run its
`before_delete`. -/
def Track.before_delete_list (db : DbStore4) : List Nat → Option (Except Error Unit)
  | [] => some (Except.ok ())
  | v :: rest =>
    match Track.fetch db v with
    | Except.error _ => none
    | Except.ok t =>
      match Track.before_delete db t with
      | Except.error e => some (Except.error e)
      | Except.ok _ => Track.before_delete_list db rest

/-- `Album::before_delete`: cascade check over `Track.album` references. -/
def Album.before_delete (db : DbStore4) (deleted : Album) : Option (Except Error Unit) :=
  Track.before_delete_list db (fkRange db.fk_Track_album deleted.id)

/-- `Artist::before_delete`: cascade check over `Track.artist` references;
the `nullify (Album.album_artist)` rule needs no pre-check. -/
def Artist.before_delete (db : DbStore4) (deleted : Artist) : Option (Except Error Unit) :=
  Track.before_delete_list db (fkRange db.fk_Track_artist deleted.id)

/-- `Track::delete_inner` (tests/store.rs:358-395): remove the pk entry, then
the clustered row, record the removal changes (attributes, then fks, then the
row removal), and drop the row's own fk-index entries.  `Track` has no cascade
or nullify lists. -/
def Track.delete_inner (db : DbStore4) (key : Nat) : Option (Track × DbStore4) :=
  match mfind? db.pk_Track key with
  | none => none
  | some ckey =>
    let db1 := { db with pk_Track := merase db.pk_Track key }
    match mfind? db1.clustered_Track ckey with
    | none => none
    | some deleted =>
      let db2 := { db1 with clustered_Track := merase db1.clustered_Track ckey }
      let ts := db2.timestamp
      let cs3 := ((db2.changes.push ts (ChangeKind.Track_name_Removed deleted.id deleted.name)).push ts (ChangeKind.Track_album_Removed deleted.id deleted.album)).push ts (ChangeKind.Track_artist_Removed deleted.id deleted.artist)
      let db3 := { db2 with changes := cs3 }
      let db4 := { db3 with changes := db3.changes.push ts (ChangeKind.Track_Removed deleted.id) }
      let db5 := { db4 with fk_Track_album := merase db4.fk_Track_album (deleted.album, deleted.id), fk_Track_artist := merase db4.fk_Track_artist (deleted.artist, deleted.id) }
      some (deleted, db5)

/-- The cascade loop of `delete_inner` (tests/store.rs:379-384): delete each
collected referencing `Track`, skipping its `before_delete`. -/
def Track.delete_inner_list (db : DbStore4) : List Nat → Option DbStore4
  | [] => some db
  | v :: rest =>
    match Track.delete_inner db v with
    | none => none
    | some (_, db2) => Track.delete_inner_list db2 rest

/-- The nullify loop of `Artist::delete_inner` (tests/store.rs:386-392): clear
`album_artist` on each collected referencing `Album`; the fk index is NOT
updated (the source's `// TODO update index`). -/
def Album.nullify_album_artist_list (db : DbStore4) : List Nat → Option DbStore4
  | [] => some db
  | v :: rest =>
    match mfind? db.pk_Album v with
    | none => none
    | some row =>
      let db2 := { db with pk_Album := minsert db.pk_Album v { row with album_artist := none } }
      Album.nullify_album_artist_list db2 rest

/-- `Album::delete_inner`: remove the pk row, record removal changes
(attributes `name`, `year`, then the nullable fk when present, then the row),
drop the row's own `album_artist` index entry, then cascade-delete the
referencing `Track`s collected from the `fk_Track_album` range. -/
def Album.delete_inner (db : DbStore4) (key : Nat) : Option (Album × DbStore4) :=
  match mfind? db.pk_Album key with
  | none => none
  | some deleted =>
    let db1 := { db with pk_Album := merase db.pk_Album key }
    let ts := db1.timestamp
    let cs2 := (db1.changes.push ts (ChangeKind.Album_name_Removed deleted.id deleted.name)).push ts (ChangeKind.Album_year_Removed deleted.id deleted.year)
    let db2 := { db1 with changes := cs2 }
    let db3 :=
      match deleted.album_artist with
      | some fk => { db2 with changes := db2.changes.push ts (ChangeKind.Album_album_artist_Removed deleted.id fk) }
      | none => db2
    let db4 := { db3 with changes := db3.changes.push ts (ChangeKind.Album_Removed deleted.id) }
    let db5 :=
      match deleted.album_artist with
      | some fk => { db4 with fk_Album_album_artist := merase db4.fk_Album_album_artist (fk, deleted.id) }
      | none => db4
    let to_delete := fkRange db5.fk_Track_album deleted.id
    match Track.delete_inner_list db5 to_delete with
    | none => none
    | some db6 => some (deleted, db6)

/-- `Artist::delete_inner`: remove the pk row, record removal changes, then
cascade-delete the referencing `Track`s (via `fk_Track_artist`) and nullify the
referencing `Album`s (via `fk_Album_album_artist`). -/
def Artist.delete_inner (db : DbStore4) (key : Nat) : Option (Artist × DbStore4) :=
  match mfind? db.pk_Artist key with
  | none => none
  | some deleted =>
    let db1 := { db with pk_Artist := merase db.pk_Artist key }
    let ts := db1.timestamp
    let cs2 := db1.changes.push ts (ChangeKind.Artist_name_Removed deleted.id deleted.name)
    let db2 := { db1 with changes := cs2 }
    let db3 := { db2 with changes := db2.changes.push ts (ChangeKind.Artist_Removed deleted.id) }
    let to_delete := fkRange db3.fk_Track_artist deleted.id
    match Track.delete_inner_list db3 to_delete with
    | none => none
    | some db4 =>
      let to_nullify := fkRange db4.fk_Album_album_artist deleted.id
      match Album.nullify_album_artist_list db4 to_nullify with
      | none => none
      | some db5 => some (deleted, db5)

/-- `Track::delete` (tests/store.rs:351-356): fetch, run `before_delete`, then
`delete_inner`; a failing check returns the error with the store untouched. -/
def Track.delete (db : DbStore4) (key : Nat) : Option (Except Error Track × DbStore4) :=
  match Track.fetch db key with
  | Except.error e => some (Except.error e, db)
  | Except.ok v =>
    match Track.before_delete db v with
    | Except.error e => some (Except.error e, db)
    | Except.ok _ =>
      match Track.delete_inner db key with
      | none => none
      | some (deleted, db2) => some (Except.ok deleted, db2)

/-- `Album::delete`. -/
def Album.delete (db : DbStore4) (key : Nat) : Option (Except Error Album × DbStore4) :=
  match Album.fetch db key with
  | Except.error e => some (Except.error e, db)
  | Except.ok v =>
    match Album.before_delete db v with
    | none => none
    | some (Except.error e) => some (Except.error e, db)
    | some (Except.ok _) =>
      match Album.delete_inner db key with
      | none => none
      | some (deleted, db2) => some (Except.ok deleted, db2)

/-- `Artist::delete`. -/
def Artist.delete (db : DbStore4) (key : Nat) : Option (Except Error Artist × DbStore4) :=
  match Artist.fetch db key with
  | Except.error e => some (Except.error e, db)
  | Except.ok v =>
    match Artist.before_delete db v with
    | none => none
    | some (Except.error e) => some (Except.error e, db)
    | some (Except.ok _) =>
      match Artist.delete_inner db key with
      | none => none
      | some (deleted, db2) => some (Except.ok deleted, db2)

/-- `Track::insert` (tests/store.rs:397-427): draw the id, build the row, run
`before_insert` (an error leaves the store untouched), then update the fk
indices, record the insertion changes, insert into the clustered and pk maps,
and store the drawn id as the new `next_id`. -/
def Track.insert (db : DbStore4) (f : Nat → Track) : Except Error Nat × DbStore4 :=
  let id := db.Track_next_id + 1
  let val := f id
  match Track.before_insert db val with
  | Except.error e => (Except.error e, db)
  | Except.ok _ =>
    let db1 := { db with fk_Track_album := minsert db.fk_Track_album (val.album, val.id) (), fk_Track_artist := minsert db.fk_Track_artist (val.artist, val.id) () }
    let ts := db1.timestamp
    let cs2 := (((db1.changes.push ts (ChangeKind.Track_Inserted val.id)).push ts (ChangeKind.Track_name_Inserted val.id val.name)).push ts (ChangeKind.Track_album_Inserted val.id val.album)).push ts (ChangeKind.Track_artist_Inserted val.id val.artist)
    let db2 := { db1 with changes := cs2 }
    let pk := val.id
    let ckey := (val.album, val.id)
    let db3 := { db2 with clustered_Track := minsert db2.clustered_Track ckey val }
    let db4 := { db3 with pk_Track := minsert db3.pk_Track pk ckey }
    (Except.ok id, { db4 with Track_next_id := id })

/-- `Album::insert`. -/
def Album.insert (db : DbStore4) (f : Nat → Album) : Except Error Nat × DbStore4 :=
  let id := db.Album_next_id + 1
  let val := f id
  match Album.before_insert db val with
  | Except.error e => (Except.error e, db)
  | Except.ok _ =>
    let db1 :=
      match val.album_artist with
      | some fk => { db with fk_Album_album_artist := minsert db.fk_Album_album_artist (fk, val.id) () }
      | none => db
    let ts := db1.timestamp
    let cs2 := ((db1.changes.push ts (ChangeKind.Album_Inserted val.id)).push ts (ChangeKind.Album_name_Inserted val.id val.name)).push ts (ChangeKind.Album_year_Inserted val.id val.year)
    let db2 := { db1 with changes := cs2 }
    let db3 :=
      match val.album_artist with
      | some fk => { db2 with changes := db2.changes.push ts (ChangeKind.Album_album_artist_Inserted val.id fk) }
      | none => db2
    let db4 := { db3 with pk_Album := minsert db3.pk_Album val.id val }
    (Except.ok id, { db4 with Album_next_id := id })

/-- `Artist::insert`. -/
def Artist.insert (db : DbStore4) (f : Nat → Artist) : Except Error Nat × DbStore4 :=
  let id := db.Artist_next_id + 1
  let val := f id
  match Artist.before_insert db val with
  | Except.error e => (Except.error e, db)
  | Except.ok _ =>
    let ts := db.timestamp
    let cs1 := (db.changes.push ts (ChangeKind.Artist_Inserted val.id)).push ts (ChangeKind.Artist_name_Inserted val.id val.name)
    let db1 := { db with changes := cs1 }
    let db2 := { db1 with pk_Artist := minsert db1.pk_Artist val.id val }
    (Except.ok id, { db2 with Artist_next_id := id })

/-- `Track::update` (tests/store.rs:437-443): delete, apply the mutation, then
re-insert the (possibly modified) row, which keeps its original pk. -/
def Track.update (db : DbStore4) (key : Nat) (f : Track → Track) :
    Option (Except Error Unit × DbStore4) :=
  match Track.delete db key with
  | none => none
  | some (Except.error e, db2) => some (Except.error e, db2)
  | some (Except.ok val, db2) =>
    match Track.insert db2 (fun _ => f val) with
    | (Except.error e, db3) => some (Except.error e, db3)
    | (Except.ok _, db3) => some (Except.ok (), db3)

/-- `Artist::update`. -/
def Artist.update (db : DbStore4) (key : Nat) (f : Artist → Artist) :
    Option (Except Error Unit × DbStore4) :=
  match Artist.delete db key with
  | none => none
  | some (Except.error e, db2) => some (Except.error e, db2)
  | some (Except.ok val, db2) =>
    match Artist.insert db2 (fun _ => f val) with
    | (Except.error e, db3) => some (Except.error e, db3)
    | (Except.ok _, db3) => some (Except.ok (), db3)

/-- `TrackId::set_album` (tests/store.rs:456-468): fetch the row mutably (an
absent row fails with `EntityNotFound`), swap in the new fk, then fix up the
`fk_Track_album` index and record the two change events.  No check that the
new destination exists is performed. -/
def Track.set_album (selfId : Nat) (db : DbStore4) (album : Nat) : Except Error DbStore4 :=
  let ts := db.timestamp
  match mfind? db.pk_Track selfId with
  | none => Except.error Error.EntityNotFound
  | some ckey =>
    match mfind? db.clustered_Track ckey with
    | none => Except.error Error.EntityNotFound
    | some val =>
      let old_fk := val.album
      let db1 := { db with clustered_Track := minsert db.clustered_Track ckey ({ val with album := album }) }
      let db2 := { db1 with fk_Track_album := merase db1.fk_Track_album (old_fk, selfId) }
      let db3 := { db2 with changes := db2.changes.push ts (ChangeKind.Track_album_Removed selfId old_fk) }
      let db4 := { db3 with fk_Track_album := minsert db3.fk_Track_album (album, selfId) () }
      Except.ok ({ db4 with changes := db4.changes.push ts (ChangeKind.Track_album_Inserted selfId album) })

/-- `TrackId::set_artist`. -/
def Track.set_artist (selfId : Nat) (db : DbStore4) (artist : Nat) : Except Error DbStore4 :=
  let ts := db.timestamp
  match mfind? db.pk_Track selfId with
  | none => Except.error Error.EntityNotFound
  | some ckey =>
    match mfind? db.clustered_Track ckey with
    | none => Except.error Error.EntityNotFound
    | some val =>
      let old_fk := val.artist
      let db1 := { db with clustered_Track := minsert db.clustered_Track ckey ({ val with artist := artist }) }
      let db2 := { db1 with fk_Track_artist := merase db1.fk_Track_artist (old_fk, selfId) }
      let db3 := { db2 with changes := db2.changes.push ts (ChangeKind.Track_artist_Removed selfId old_fk) }
      let db4 := { db3 with fk_Track_artist := minsert db3.fk_Track_artist (artist, selfId) () }
      Except.ok ({ db4 with changes := db4.changes.push ts (ChangeKind.Track_artist_Inserted selfId artist) })

/-- `AlbumId::set_album_artist` (tests/store.rs:471-484): the nullable-fk
setter; swaps the field and fixes up the index, recording no change events and
performing no destination check. -/
def Album.set_album_artist (selfId : Nat) (db : DbStore4) (album_artist : Option Nat) :
    Except Error DbStore4 :=
  match mfind? db.pk_Album selfId with
  | none => Except.error Error.EntityNotFound
  | some val =>
    let old := val.album_artist
    let db1 := { db with pk_Album := minsert db.pk_Album selfId ({ val with album_artist := album_artist }) }
    let db2 :=
      match old with
      | some fk => { db1 with fk_Album_album_artist := merase db1.fk_Album_album_artist (fk, selfId) }
      | none => db1
    let db3 :=
      match album_artist with
      | some fk => { db2 with fk_Album_album_artist := minsert db2.fk_Album_album_artist (fk, selfId) () }
      | none => db2
    Except.ok db3

/-- Example store: artist 1 "a", album 1 "x" with `album_artist = Some(1)`,
track 1 "t" on album 1 by artist 1 — built through the public insert calls. -/
def exampleDb : DbStore4 :=
  (Track.insert
    (Album.insert
      (Artist.insert DbStore4.empty (fun id => Artist.mk id "a")).2
      (fun id => Album.mk id "x" 2000 (some 1))).2
    (fun id => Track.mk id "t" 1 1)).2

/-- The example store after the delete phase of `Track::update` on track 1. -/
def examplePostDelete : DbStore4 :=
  match Track.delete exampleDb 1 with
  | some (_, db2) => db2
  | none => exampleDb

/-- The example store after `Artist::update` on artist 1 with the identity
mutation (a delete immediately followed by a reinsert of the same row). -/
def exampleAfterArtistUpdate : DbStore4 :=
  match Artist.update exampleDb 1 (fun a => a) with
  | some (_, db2) => db2
  | none => exampleDb

end TestStore


/-- The single event `Table::delta` should produce for one identifier, given
the old and the new snapshot's row (if any) at that identifier: nothing when
presence and revision agree, otherwise exactly one `Insert`, `Remove` or
`Update`. -/
def deltaEventAt (ov nv : Option (TRow α)) (id : Nat) : List (Delta (Nat × α)) :=
  match ov, nv with
  | none, none => []
  | some o, none => [Delta.Remove (id, o.data)]
  | none, some n => [Delta.Insert (id, n.data)]
  | some o, some n =>
    if o.revision = n.revision then [] else [Delta.Update (id, o.data) (id, n.data)]

/-! # Theorems -/

/-! ## Ordered-map lemmas -/

theorem MWF_cons_iff [DecidableEq K] [MKey K] {p : K × V} {t : OMap K V} :
    MWF (p :: t) ↔ (∀ q ∈ t, MKey.ltb p.1 q.1 = true) ∧ MWF t := by
  unfold MWF
  exact List.pairwise_cons

theorem MWF_nil [DecidableEq K] [MKey K] : MWF ([] : OMap K V) :=
  List.Pairwise.nil

theorem mfind?_minsert_self [DecidableEq K] [MKey K] (m : OMap K V) (k : K) (v : V) :
    mfind? (minsert m k v) k = some v := by
  induction m with
  | nil => simp [minsert, mfind?]
  | cons h t ih =>
    obtain ⟨k', v'⟩ := h
    by_cases hlt : MKey.ltb k k'
    · simp [minsert, hlt, mfind?]
    · by_cases heq : k = k'
      · subst heq
        simp [minsert, hlt, mfind?]
      · simp [minsert, hlt, heq, mfind?, ih]

theorem mfind?_minsert_ne [DecidableEq K] [MKey K] (m : OMap K V) (k k₂ : K) (v : V)
    (h : k₂ ≠ k) : mfind? (minsert m k v) k₂ = mfind? m k₂ := by
  induction m with
  | nil => simp [minsert, mfind?, h]
  | cons hd t ih =>
    obtain ⟨k', v'⟩ := hd
    by_cases hlt : MKey.ltb k k'
    · simp [minsert, hlt, mfind?, h]
    · by_cases heq : k = k'
      · subst heq
        simp [minsert, hlt, mfind?, h]
      · simp only [minsert, hlt, heq, if_false, ite_false, Bool.false_eq_true]
        by_cases h2 : k₂ = k'
        · simp [mfind?, h2]
        · simp [mfind?, h2, ih]

theorem mfind?_merase_ne [DecidableEq K] [MKey K] (m : OMap K V) (k k₂ : K) (h : k₂ ≠ k) :
    mfind? (merase m k) k₂ = mfind? m k₂ := by
  induction m with
  | nil => simp [merase]
  | cons hd t ih =>
    obtain ⟨k', v'⟩ := hd
    by_cases heq : k = k'
    · subst heq
      simp [merase, mfind?, h]
    · by_cases h2 : k₂ = k'
      · simp [merase, heq, mfind?, h2]
      · simp [merase, heq, mfind?, h2, ih]

theorem mfind?_eq_none_of_forall [DecidableEq K] [MKey K] (m : OMap K V) (k : K)
    (h : ∀ p ∈ m, p.1 ≠ k) : mfind? m k = none := by
  induction m with
  | nil => rfl
  | cons hd t ih =>
    have h1 := h hd (List.mem_cons_self _ _)
    simp only [mfind?]
    rw [if_neg (fun he => h1 he.symm)]
    exact ih (fun p hp => h p (List.mem_cons_of_mem _ hp))

theorem mfind?_merase_self [DecidableEq K] [MKey K] (m : OMap K V) (k : K) (hwf : MWF m) :
    mfind? (merase m k) k = none := by
  induction m with
  | nil => rfl
  | cons hd t ih =>
    obtain ⟨k', v'⟩ := hd
    rw [MWF_cons_iff] at hwf
    by_cases heq : k = k'
    · subst heq
      simp only [merase, if_pos rfl]
      apply mfind?_eq_none_of_forall
      intro p hp he
      have h1 := hwf.1 p hp
      rw [he] at h1
      rw [MKey.ltb_irrefl] at h1
      exact Bool.false_ne_true h1
    · simp only [merase, if_neg heq, mfind?, if_neg heq]
      exact ih hwf.2

theorem mem_minsert [DecidableEq K] [MKey K] (m : OMap K V) (k : K) (v : V) (p : K × V)
    (hp : p ∈ minsert m k v) : p ∈ m ∨ p = (k, v) := by
  induction m with
  | nil =>
    simp [minsert] at hp
    simp [hp]
  | cons hd t ih =>
    obtain ⟨ka, va⟩ := hd
    by_cases h2 : MKey.ltb k ka
    · simp only [minsert, h2, if_true] at hp
      rcases List.mem_cons.mp hp with h3 | h3
      · right; exact h3
      · left; exact h3
    · by_cases h3 : k = ka
      · subst h3
        simp only [minsert, h2, if_false, if_pos rfl, ite_false, Bool.false_eq_true] at hp
        rcases List.mem_cons.mp hp with h4 | h4
        · right; exact h4
        · left; exact List.mem_cons_of_mem _ h4
      · simp only [minsert, h2, h3, if_false, ite_false, Bool.false_eq_true] at hp
        rcases List.mem_cons.mp hp with h4 | h4
        · left; rw [h4]; exact List.mem_cons_self _ _
        · rcases ih h4 with h5 | h5
          · left; exact List.mem_cons_of_mem _ h5
          · right; exact h5

theorem mem_merase [DecidableEq K] [MKey K] (m : OMap K V) (k : K) (p : K × V)
    (hp : p ∈ merase m k) : p ∈ m := by
  induction m with
  | nil => simp [merase] at hp
  | cons hd t ih =>
    obtain ⟨ka, va⟩ := hd
    by_cases h2 : k = ka
    · simp only [merase, if_pos h2] at hp
      exact List.mem_cons_of_mem _ hp
    · simp only [merase, if_neg h2] at hp
      rcases List.mem_cons.mp hp with h3 | h3
      · rw [h3]; exact List.mem_cons_self _ _
      · exact List.mem_cons_of_mem _ (ih h3)

theorem MWF_minsert [DecidableEq K] [MKey K] (m : OMap K V) (k : K) (v : V) (hwf : MWF m) :
    MWF (minsert m k v) := by
  induction m with
  | nil => simp [minsert, MWF]
  | cons hd t ih =>
    obtain ⟨k', v'⟩ := hd
    rw [MWF_cons_iff] at hwf
    by_cases hlt : MKey.ltb k k'
    · simp only [minsert, hlt, if_true]
      rw [MWF_cons_iff]
      refine ⟨?_, MWF_cons_iff.mpr hwf⟩
      intro p hp
      rcases List.mem_cons.mp hp with h1 | h1
      · rw [h1]; exact hlt
      · exact MKey.ltb_trans _ _ _ hlt (hwf.1 p h1)
    · by_cases heq : k = k'
      · subst heq
        simp only [minsert, hlt, if_false, if_pos rfl, ite_false, Bool.false_eq_true]
        exact MWF_cons_iff.mpr ⟨hwf.1, hwf.2⟩
      · simp only [minsert, hlt, heq, if_false, ite_false, Bool.false_eq_true]
        rw [MWF_cons_iff]
        refine ⟨?_, ih hwf.2⟩
        intro p hp
        have hk'k : MKey.ltb k' k = true := by
          rcases MKey.ltb_total k k' heq with h1 | h1
          · exact absurd h1 (by simp [hlt])
          · exact h1
        rcases mem_minsert t k v p hp with h1 | h1
        · exact hwf.1 p h1
        · rw [h1]; exact hk'k

theorem MWF_merase [DecidableEq K] [MKey K] (m : OMap K V) (k : K) (hwf : MWF m) :
    MWF (merase m k) := by
  induction m with
  | nil => exact hwf
  | cons hd t ih =>
    obtain ⟨k', v'⟩ := hd
    rw [MWF_cons_iff] at hwf
    by_cases heq : k = k'
    · simpa [merase, heq] using hwf.2
    · simp only [merase, if_neg heq]
      rw [MWF_cons_iff]
      exact ⟨fun p hp => hwf.1 p (mem_merase t k p hp), ih hwf.2⟩

/-! ## C7: default delete-rule resolution -/

/-- C7: for every relation that declares an inverse but no explicit delete
rule, the resolved delete rule is `Deny` when the inverse side's multiplicity
is `One`, and `Nullify` when it is `ZeroOrOne` or `Many`. -/
theorem default_delete_rule_from_inverse_multiplicity :
    resolveDeleteRule none Multiplicity.One = DeleteRule.Deny ∧
    resolveDeleteRule none Multiplicity.ZeroOrOne = DeleteRule.Nullify ∧
    resolveDeleteRule none Multiplicity.Many = DeleteRule.Nullify :=
  ⟨rfl, rfl, rfl⟩

/-! ## C10: the `Vec` `RelOps` instance never creates duplicates -/

theorem vecPosition_lt [DecidableEq T] (v : List T) (i : T) (p : Nat)
    (h : vecPosition v i = some p) : p < v.length := by
  induction v generalizing p with
  | nil => simp [vecPosition] at h
  | cons x t ih =>
    by_cases hx : x = i
    · simp only [vecPosition, if_pos hx, Option.some.injEq] at h
      simp [← h]
    · simp only [vecPosition, if_neg hx, Option.map_eq_some'] at h
      obtain ⟨q, hq, rfl⟩ := h
      have := ih q hq
      simp only [List.length_cons]
      omega

theorem swapRemove_perm_eraseIdx (v : List T) (pos : Nat) (hpos : pos < v.length) :
    List.Perm (swapRemove v pos) (v.eraseIdx pos) := by
  have hne : v ≠ [] := List.ne_nil_of_length_pos (Nat.lt_of_le_of_lt (Nat.zero_le _) hpos)
  rw [swapRemove]
  rw [List.getLast?_eq_getLast_of_ne_nil hne]
  simp only
  rw [List.set_eq_take_append_cons_drop, if_pos hpos, List.eraseIdx_eq_take_drop_succ]
  by_cases hlast : v.length ≤ pos + 1
  · have hdrop : v.drop (pos + 1) = [] := List.drop_eq_nil_iff.mpr hlast
    rw [hdrop, List.append_nil]
    rw [List.dropLast_concat]
  · push_neg at hlast
    have hd : v.drop (pos + 1) ≠ [] := by
      intro h
      exact absurd (List.drop_eq_nil_iff.mp h) (Nat.not_le_of_lt hlast)
    obtain ⟨mid, dl, hmd⟩ : ∃ mid dl, v.drop (pos + 1) = mid ++ [dl] :=
      ⟨(v.drop (pos + 1)).dropLast, (v.drop (pos + 1)).getLast hd,
        (List.dropLast_append_getLast hd).symm⟩
    have hlasteq : v.getLast hne = dl := by
      have hsplit : v.take (pos + 1) ++ v.drop (pos + 1) = v := List.take_append_drop _ _
      have h2 := List.getLast_congr (by rw [hsplit]; exact hne : v.take (pos + 1) ++ v.drop (pos + 1) ≠ []) hne hsplit
      rw [← h2, List.getLast_append]
      simp only [hmd]
      rw [dif_neg (by simp)]
      exact List.getLast_concat _
    rw [hlasteq, hmd]
    rw [show v.take pos ++ dl :: (mid ++ [dl]) = (v.take pos ++ dl :: mid) ++ [dl] by simp]
    rw [List.dropLast_concat]
    exact List.Perm.append_left _ (List.perm_append_singleton _ _).symm

theorem vecInsert_nodup [DecidableEq T] (v : List T) (i : T) (h : v.Nodup) :
    (vecInsert v i).Nodup := by
  unfold vecInsert
  by_cases hc : vecContains v i = true
  · rw [if_pos hc]
    exact h
  · rw [if_neg hc]
    have hmem : i ∉ v := by simpa [vecContains] using hc
    simp [List.nodup_append, h, hmem]

theorem vecRemove_nodup [DecidableEq T] (v : List T) (i : T) (h : v.Nodup) :
    (vecRemove v i).Nodup := by
  unfold vecRemove
  cases hp : vecPosition v i with
  | none => exact h
  | some pos =>
    have hlt : pos < v.length := vecPosition_lt v i pos hp
    have hsub : (v.eraseIdx pos).Nodup := h.sublist (List.eraseIdx_sublist v pos)
    exact ((swapRemove_perm_eraseIdx v pos hlt).symm).nodup hsub

theorem runRelOps_nodup [DecidableEq T] (v : List T) (ops : List (RelOpAct T))
    (h : v.Nodup) : (runRelOps v ops).Nodup := by
  induction ops generalizing v with
  | nil => exact h
  | cons op rest ih =>
    cases op with
    | ins i => exact ih _ (vecInsert_nodup v i h)
    | rem i => exact ih _ (vecRemove_nodup v i h)

/-- C10: for the `Vec`-backed to-many relation container, `RelOps::insert` is
idempotent — inserting an identifier the vector already contains leaves it
unchanged — so after any sequence of `RelOps::insert` and `RelOps::remove`
calls a duplicate-free to-many relation field stays duplicate-free. -/
theorem relops_vec_insert_idempotent_no_dup :
    (∀ (T : Type) (_ : DecidableEq T) (v : List T) (i : T),
      vecContains v i = true → vecInsert v i = v) ∧
    (∀ (T : Type) (_ : DecidableEq T) (v : List T) (ops : List (RelOpAct T)),
      v.Nodup → (runRelOps v ops).Nodup) :=
  ⟨fun _ _ v i h => by simp [vecInsert, h],
   fun _ _ v ops h => runRelOps_nodup v ops h⟩

/-- Witness for C10 at concrete inputs. -/
theorem relops_vec_insert_idempotent_no_dup_witness :
    vecInsert [3, 5] 5 = [3, 5] ∧
    (runRelOps [3] [RelOpAct.ins 4, RelOpAct.ins 4, RelOpAct.rem 3, RelOpAct.ins 7]).Nodup :=
  ⟨relops_vec_insert_idempotent_no_dup.1 Nat instDecidableEqNat [3, 5] 5 (by decide),
   relops_vec_insert_idempotent_no_dup.2 Nat instDecidableEqNat [3]
     [RelOpAct.ins 4, RelOpAct.ins 4, RelOpAct.rem 3, RelOpAct.ins 7] (by decide)⟩


/-! ## C9: identifiers handed out by `Table::insert` -/

theorem insertedIds_of_countInserts_zero (ops : List (TableOp α)) (t : Table α)
    (h : TableOp.countInserts ops = 0) : Table.insertedIds t ops = [] := by
  induction ops generalizing t with
  | nil => rfl
  | cons op rest ih =>
    cases op with
    | insert d => simp [TableOp.countInserts] at h
    | remove id => exact ih _ (by simpa [TableOp.countInserts] using h)
    | clear => exact ih _ (by simpa [TableOp.countInserts] using h)

theorem insertedIds_eq_range' (ops : List (TableOp α)) (t : Table α)
    (h : t.next_id + TableOp.countInserts ops ≤ U32) :
    Table.insertedIds t ops = List.range' t.next_id (TableOp.countInserts ops) := by
  induction ops generalizing t with
  | nil => simp [Table.insertedIds, TableOp.countInserts]
  | cons op rest ih =>
    cases op with
    | insert d =>
      simp only [Table.insertedIds, TableOp.countInserts]
      have h1 : (t.insert d).1 = t.next_id := rfl
      have hnext : (t.insert d).2.next_id = (t.next_id + 1) % U32 := rfl
      rw [List.range'_succ]
      by_cases hlt : t.next_id + 1 < U32
      · have hmod : (t.insert d).2.next_id = t.next_id + 1 := by
          rw [hnext]; exact Nat.mod_eq_of_lt hlt
        rw [h1, ih ((t.insert d).2) (by rw [hmod]; simp only [TableOp.countInserts] at h; omega),
          hmod]
      · have hc : TableOp.countInserts rest = 0 := by
          simp only [TableOp.countInserts] at h
          omega
        rw [h1, insertedIds_of_countInserts_zero rest _ hc, hc]
        simp
    | remove id =>
      simp only [Table.insertedIds, TableOp.countInserts] at h ⊢
      exact ih _ h
    | clear =>
      simp only [Table.insertedIds, TableOp.countInserts] at h ⊢
      exact ih _ h

theorem insertedIds_replicate_insert (k : Nat) (t : Table α) (d : α) (hn : t.next_id < U32) :
    Table.insertedIds t (List.replicate k (TableOp.insert d)) =
      (List.range k).map (fun i => (t.next_id + i) % U32) := by
  induction k generalizing t with
  | zero => rfl
  | succ k ih =>
    rw [List.replicate_succ]
    simp only [Table.insertedIds]
    have h1 : (t.insert d).1 = t.next_id := rfl
    have hnext : (t.insert d).2.next_id = (t.next_id + 1) % U32 := rfl
    rw [h1, ih ((t.insert d).2) (by rw [hnext]; exact Nat.mod_lt _ (by norm_num [U32]))]
    rw [hnext, List.range_succ_eq_map]
    simp only [List.map_cons, List.map_map]
    refine congrArg₂ _ ?_ ?_
    · rw [Nat.add_zero]
      exact (Nat.mod_eq_of_lt hn).symm
    · refine List.map_congr_left ?_
      intro i _
      show ((t.next_id + 1) % U32 + i) % U32 = (t.next_id + (i + 1)) % U32
      rw [Nat.mod_add_mod]
      refine congrArg₂ _ ?_ rfl
      omega

/-- C9 counterexample: the id counter is a `u32`; after `2 ^ 32` inserts it
wraps around, and the next insert returns identifier `0` a second time, so the
identifiers returned by successive inserts are not strictly increasing and an
identifier is reused. -/
theorem table_insert_id_reuse_counterexample :
    ¬ List.Pairwise (fun a b => a < b)
      (Table.insertedIds (@Table.new Unit) (List.replicate (U32 + 1) (TableOp.insert ()))) := by
  intro hpair
  rw [insertedIds_replicate_insert _ _ _ (by norm_num [Table.new, U32])] at hpair
  rw [List.pairwise_iff_getElem] at hpair
  have hlen : ((List.range (U32 + 1)).map
      (fun i => ((@Table.new Unit).next_id + i) % U32)).length = U32 + 1 := by
    simp
  have hU : 0 < U32 := by norm_num [U32]
  have h2 := hpair 0 U32 (by omega) (by omega) hU
  simp only [List.getElem_map, List.getElem_range] at h2
  have hnew : (@Table.new Unit).next_id = 0 := rfl
  rw [hnew] at h2
  simp only [Nat.zero_add, Nat.zero_mod, Nat.mod_self] at h2
  exact Nat.lt_irrefl 0 h2

/-- C9 (amended): for every sequence of `Table` operations performing at most
`2 ^ 32` inserts in the table's lifetime, the identifiers returned by
successive `insert` calls are strictly increasing — hence never reused — and
`remove` and `clear` do not affect this, since neither touches `next_id`. -/
theorem table_insert_ids_strictly_increasing (ops : List (TableOp α))
    (h : TableOp.countInserts ops ≤ U32) :
    List.Pairwise (fun a b => a < b) (Table.insertedIds Table.new ops) := by
  rw [insertedIds_eq_range' ops Table.new (by simpa [Table.new] using h)]
  exact List.pairwise_lt_range' _ _

/-- Witness for C9's amended theorem at a concrete operation sequence mixing
inserts, removes and a clear. -/
theorem table_insert_ids_strictly_increasing_witness :
    TableOp.countInserts
      [TableOp.insert 7, TableOp.remove 0, TableOp.insert 8, TableOp.clear,
        TableOp.insert 9] ≤ U32 ∧
    List.Pairwise (fun a b => a < b)
      (Table.insertedIds Table.new
        [TableOp.insert 7, TableOp.remove 0, TableOp.insert 8, TableOp.clear,
          TableOp.insert 9]) :=
  ⟨by norm_num [TableOp.countInserts, U32],
   table_insert_ids_strictly_increasing _ (by norm_num [TableOp.countInserts, U32])⟩


/-! ## C4: `Table::delta` characterization -/

theorem MWF_nat_iff {V : Type} (m : OMap Nat V) :
    MWF m ↔ List.Pairwise (fun a b : Nat × V => a.1 < b.1) m := by
  unfold MWF
  constructor
  · intro h
    exact h.imp (by simp [MKey.ltb])
  · intro h
    exact h.imp (by simp [MKey.ltb])

theorem mfind?_eq_none_of_lt {V : Type} (m : OMap Nat V) (k : Nat)
    (h : ∀ p ∈ m, k < p.1) : mfind? m k = none :=
  mfind?_eq_none_of_forall m k (fun p hp => Nat.ne_of_gt (h p hp))

theorem deltaAux_key_lt (k0 : Nat) (o n : OMap Nat (TRow α))
    (ho : ∀ p ∈ o, k0 < p.1) (hn : ∀ p ∈ n, k0 < p.1) :
    ∀ e ∈ deltaAux o n, k0 < Delta.key e := by
  induction o, n using deltaAux.induct with
  | case1 news =>
    intro e he
    simp only [deltaAux, List.mem_map] at he
    obtain ⟨p, hp, rfl⟩ := he
    exact hn p hp
  | case2 k1 v1 t1 ih =>
    intro e he
    rw [deltaAux] at he
    rcases List.mem_cons.mp he with rfl | he2
    · exact ho _ (List.mem_cons_self _ _)
    · exact ih (fun p hp => ho p (List.mem_cons_of_mem _ hp)) (by intro p hp; cases hp) e he2
  | case3 k1 v1 t1 k2 v2 t2 hlt ih =>
    intro e he
    rw [deltaAux, if_pos hlt] at he
    rcases List.mem_cons.mp he with rfl | he2
    · exact ho _ (List.mem_cons_self _ _)
    · exact ih (fun p hp => ho p (List.mem_cons_of_mem _ hp)) hn e he2
  | case4 k1 v1 t1 k2 v2 t2 hnlt hlt ih =>
    intro e he
    rw [deltaAux, if_neg hnlt, if_pos hlt] at he
    rcases List.mem_cons.mp he with rfl | he2
    · exact hn _ (List.mem_cons_self _ _)
    · exact ih ho (fun p hp => hn p (List.mem_cons_of_mem _ hp)) e he2
  | case5 k1 v1 t1 k2 v2 t2 hnlt hnlt2 hrev ih =>
    intro e he
    rw [deltaAux, if_neg hnlt, if_neg hnlt2, if_pos hrev] at he
    exact ih (fun p hp => ho p (List.mem_cons_of_mem _ hp))
      (fun p hp => hn p (List.mem_cons_of_mem _ hp)) e he
  | case6 k1 v1 t1 k2 v2 t2 hnlt hnlt2 hrev ih =>
    intro e he
    rw [deltaAux, if_neg hnlt, if_neg hnlt2, if_neg hrev] at he
    rcases List.mem_cons.mp he with rfl | he2
    · exact ho _ (List.mem_cons_self _ _)
    · exact ih (fun p hp => ho p (List.mem_cons_of_mem _ hp))
        (fun p hp => hn p (List.mem_cons_of_mem _ hp)) e he2

theorem deltaAux_keys_sorted (o n : OMap Nat (TRow α)) (ho : MWF o) (hn : MWF n) :
    List.Pairwise (fun a b => a < b) ((deltaAux o n).map Delta.key) := by
  rw [MWF_nat_iff] at ho hn
  induction o, n using deltaAux.induct with
  | case1 news =>
    simp only [deltaAux, List.map_map]
    refine hn.map _ ?_
    intro a b h
    exact h
  | case2 k1 v1 t1 ih =>
    rw [List.pairwise_cons] at ho
    rw [deltaAux, List.map_cons, List.pairwise_cons]
    constructor
    · intro k hk
      simp only [List.mem_map] at hk
      obtain ⟨e, he, rfl⟩ := hk
      exact deltaAux_key_lt k1 t1 [] ho.1 (by intro p hp; cases hp) e he
    · exact ih ho.2 List.Pairwise.nil
  | case3 k1 v1 t1 k2 v2 t2 hlt ih =>
    rw [List.pairwise_cons] at ho
    rw [deltaAux, if_pos hlt, List.map_cons, List.pairwise_cons]
    constructor
    · intro k hk
      simp only [List.mem_map] at hk
      obtain ⟨e, he, rfl⟩ := hk
      refine deltaAux_key_lt k1 t1 ((k2, v2) :: t2) ho.1 ?_ e he
      intro p hp
      rcases List.mem_cons.mp hp with rfl | hp2
      · exact hlt
      · rw [List.pairwise_cons] at hn
        exact Nat.lt_trans hlt (hn.1 p hp2)
    · exact ih ho.2 hn
  | case4 k1 v1 t1 k2 v2 t2 hnlt hlt ih =>
    rw [List.pairwise_cons] at hn
    rw [deltaAux, if_neg hnlt, if_pos hlt, List.map_cons, List.pairwise_cons]
    constructor
    · intro k hk
      simp only [List.mem_map] at hk
      obtain ⟨e, he, rfl⟩ := hk
      refine deltaAux_key_lt k2 ((k1, v1) :: t1) t2 ?_ hn.1 e he
      intro p hp
      rcases List.mem_cons.mp hp with rfl | hp2
      · exact hlt
      · rw [List.pairwise_cons] at ho
        exact Nat.lt_trans hlt (ho.1 p hp2)
    · exact ih ho hn.2
  | case5 k1 v1 t1 k2 v2 t2 hnlt hnlt2 hrev ih =>
    rw [List.pairwise_cons] at ho hn
    rw [deltaAux, if_neg hnlt, if_neg hnlt2, if_pos hrev]
    exact ih ho.2 hn.2
  | case6 k1 v1 t1 k2 v2 t2 hnlt hnlt2 hrev ih =>
    rw [List.pairwise_cons] at ho hn
    rw [deltaAux, if_neg hnlt, if_neg hnlt2, if_neg hrev, List.map_cons, List.pairwise_cons]
    constructor
    · intro k hk
      simp only [List.mem_map] at hk
      obtain ⟨e, he, rfl⟩ := hk
      refine deltaAux_key_lt k1 t1 t2 ho.1 ?_ e he
      intro p hp
      have hk12 : k1 = k2 := Nat.le_antisymm (Nat.le_of_not_lt hnlt2) (Nat.le_of_not_lt hnlt)
      rw [hk12]
      exact hn.1 p hp
    · exact ih ho.2 hn.2


theorem filter_key_eq_nil_of_lt {l : List (Delta (Nat × α))} {id : Nat}
    (h : ∀ e ∈ l, id < Delta.key e) :
    l.filter (fun e => Delta.key e == id) = [] := by
  rw [List.filter_eq_nil_iff]
  intro e he
  have h2 := h e he
  simp only [beq_iff_eq]
  omega

theorem filterKey_insertMap (n : OMap Nat (TRow α))
    (hn : List.Pairwise (fun a b : Nat × TRow α => a.1 < b.1) n) (id : Nat) :
    ((n.map (fun p => Delta.Insert (p.1, p.2.data))).filter (fun e => Delta.key e == id)) =
      deltaEventAt none (mfind? n id) id := by
  induction n with
  | nil => rfl
  | cons hd t ih =>
    obtain ⟨k, v⟩ := hd
    rw [List.pairwise_cons] at hn
    rw [List.map_cons, List.filter_cons]
    by_cases hid : id = k
    · subst hid
      have hcond : (Delta.key (Delta.Insert (id, v.data)) == id) = true := by
        simp [Delta.key]
      rw [if_pos hcond]
      have hnil : ((t.map (fun p => Delta.Insert (p.1, p.2.data))).filter
          (fun e => Delta.key e == id)) = [] := by
        refine filter_key_eq_nil_of_lt ?_
        intro e he
        simp only [List.mem_map] at he
        obtain ⟨p, hp, rfl⟩ := he
        exact hn.1 p hp
      rw [hnil]
      simp [mfind?, deltaEventAt]
    · have hne : ¬(Delta.key (Delta.Insert (k, v.data)) == id) = true := by
        simp only [Delta.key, beq_iff_eq]
        omega
      rw [if_neg hne]
      rw [ih hn.2]
      have hfind : mfind? ((k, v) :: t) id = mfind? t id := by
        simp [mfind?, hid]
      rw [hfind]

theorem deltaAux_filterKey (o n : OMap Nat (TRow α)) (ho : MWF o) (hn : MWF n) (id : Nat) :
    (deltaAux o n).filter (fun e => Delta.key e == id) =
      deltaEventAt (mfind? o id) (mfind? n id) id := by
  rw [MWF_nat_iff] at ho hn
  induction o, n using deltaAux.induct with
  | case1 news =>
    rw [deltaAux]
    exact filterKey_insertMap news hn id
  | case2 k1 v1 t1 ih =>
    rw [List.pairwise_cons] at ho
    rw [deltaAux, List.filter_cons]
    by_cases hid : id = k1
    · subst hid
      have hcond : (Delta.key (Delta.Remove (id, v1.data)) == id) = true := by
        simp [Delta.key]
      rw [if_pos hcond]
      rw [filter_key_eq_nil_of_lt
        (deltaAux_key_lt id t1 [] ho.1 (by intro p hp; cases hp))]
      simp [mfind?, deltaEventAt]
    · have hne : ¬(Delta.key (Delta.Remove (k1, v1.data)) == id) = true := by
        simp only [Delta.key, beq_iff_eq]
        omega
      rw [if_neg hne]
      rw [ih ho.2 List.Pairwise.nil]
      have hfind : mfind? ((k1, v1) :: t1) id = mfind? t1 id := by
        simp [mfind?, hid]
      rw [hfind]
  | case3 k1 v1 t1 k2 v2 t2 hlt ih =>
    rw [List.pairwise_cons] at ho
    rw [deltaAux, if_pos hlt, List.filter_cons]
    by_cases hid : id = k1
    · subst hid
      have hcond : (Delta.key (Delta.Remove (id, v1.data)) == id) = true := by
        simp [Delta.key]
      rw [if_pos hcond]
      have hbound : ∀ p ∈ (k2, v2) :: t2, id < p.1 := by
        intro p hp
        rcases List.mem_cons.mp hp with rfl | hp2
        · exact hlt
        · rw [List.pairwise_cons] at hn
          exact Nat.lt_trans hlt (hn.1 p hp2)
      rw [filter_key_eq_nil_of_lt (deltaAux_key_lt id t1 ((k2, v2) :: t2) ho.1 hbound)]
      rw [mfind?_eq_none_of_lt _ _ hbound]
      simp [mfind?, deltaEventAt]
    · have hne : ¬(Delta.key (Delta.Remove (k1, v1.data)) == id) = true := by
        simp only [Delta.key, beq_iff_eq]
        omega
      rw [if_neg hne]
      rw [ih ho.2 hn]
      have hfind : mfind? ((k1, v1) :: t1) id = mfind? t1 id := by
        simp [mfind?, hid]
      rw [hfind]
  | case4 k1 v1 t1 k2 v2 t2 hnlt hlt ih =>
    rw [List.pairwise_cons] at hn
    rw [deltaAux, if_neg hnlt, if_pos hlt, List.filter_cons]
    by_cases hid : id = k2
    · subst hid
      have hcond : (Delta.key (Delta.Insert (id, v2.data)) == id) = true := by
        simp [Delta.key]
      rw [if_pos hcond]
      have hbound : ∀ p ∈ (k1, v1) :: t1, id < p.1 := by
        intro p hp
        rcases List.mem_cons.mp hp with rfl | hp2
        · exact hlt
        · rw [List.pairwise_cons] at ho
          exact Nat.lt_trans hlt (ho.1 p hp2)
      rw [filter_key_eq_nil_of_lt (deltaAux_key_lt id ((k1, v1) :: t1) t2 hbound hn.1)]
      rw [mfind?_eq_none_of_lt _ _ hbound]
      simp [mfind?, deltaEventAt]
    · have hne : ¬(Delta.key (Delta.Insert (k2, v2.data)) == id) = true := by
        simp only [Delta.key, beq_iff_eq]
        omega
      rw [if_neg hne]
      rw [ih ho hn.2]
      have hfind : mfind? ((k2, v2) :: t2) id = mfind? t2 id := by
        simp [mfind?, hid]
      rw [hfind]
  | case5 k1 v1 t1 k2 v2 t2 hnlt hnlt2 hrev ih =>
    have hk12 : k1 = k2 := Nat.le_antisymm (Nat.le_of_not_lt hnlt2) (Nat.le_of_not_lt hnlt)
    rw [List.pairwise_cons] at ho hn
    rw [deltaAux, if_neg hnlt, if_neg hnlt2, if_pos hrev]
    by_cases hid : id = k1
    · subst hid
      rw [filter_key_eq_nil_of_lt
        (deltaAux_key_lt id t1 t2 ho.1 (by rw [hk12]; exact hn.1))]
      have h1 : mfind? ((id, v1) :: t1) id = some v1 := by simp [mfind?]
      have h2 : mfind? ((k2, v2) :: t2) id = some v2 := by simp [mfind?, hk12]
      rw [h1, h2]
      simp [deltaEventAt, hrev]
    · rw [ih ho.2 hn.2]
      have h1 : mfind? ((k1, v1) :: t1) id = mfind? t1 id := by simp [mfind?, hid]
      have h2 : mfind? ((k2, v2) :: t2) id = mfind? t2 id := by
        simp [mfind?, hk12 ▸ hid]
      rw [h1, h2]
  | case6 k1 v1 t1 k2 v2 t2 hnlt hnlt2 hrev ih =>
    have hk12 : k1 = k2 := Nat.le_antisymm (Nat.le_of_not_lt hnlt2) (Nat.le_of_not_lt hnlt)
    rw [List.pairwise_cons] at ho hn
    rw [deltaAux, if_neg hnlt, if_neg hnlt2, if_neg hrev, List.filter_cons]
    by_cases hid : id = k1
    · subst hid
      have hcond : (Delta.key (Delta.Update (id, v1.data) (k2, v2.data)) == id) = true := by
        simp [Delta.key]
      rw [if_pos hcond]
      rw [filter_key_eq_nil_of_lt
        (deltaAux_key_lt id t1 t2 ho.1 (by rw [hk12]; exact hn.1))]
      have h1 : mfind? ((id, v1) :: t1) id = some v1 := by simp [mfind?]
      have h2 : mfind? ((k2, v2) :: t2) id = some v2 := by simp [mfind?, hk12]
      rw [h1, h2]
      simp only [deltaEventAt, if_neg hrev]
      rw [← hk12]
    · have hne : ¬(Delta.key (Delta.Update (k1, v1.data) (k2, v2.data)) == id) = true := by
        simp only [Delta.key, beq_iff_eq]
        omega
      rw [if_neg hne]
      rw [ih ho.2 hn.2]
      have h1 : mfind? ((k1, v1) :: t1) id = mfind? t1 id := by simp [mfind?, hid]
      have h2 : mfind? ((k2, v2) :: t2) id = mfind? t2 id := by
        simp [mfind?, hk12 ▸ hid]
      rw [h1, h2]


/-- C4: for two snapshots of the same `Table`, `delta` produces exactly one
event per identifier whose presence or revision differs — `Insert` for ids only
in the newer snapshot, `Remove` for ids only in the older, `Update` for ids in
both with differing revision counters, nothing for unchanged ids — and the
events come in ascending identifier order. -/
theorem table_delta_exactly_one_event_per_changed_id (cur prev : Table α)
    (hc : MWF cur.data) (hp : MWF prev.data) :
    List.Pairwise (fun a b => a < b) ((cur.delta prev).map Delta.key) ∧
    ∀ id : Nat,
      (cur.delta prev).filter (fun e => Delta.key e == id) =
        deltaEventAt (mfind? prev.data id) (mfind? cur.data id) id :=
  ⟨deltaAux_keys_sorted prev.data cur.data hp hc,
   fun id => deltaAux_filterKey prev.data cur.data hp hc id⟩

/-- Witness for C4: a pair of concrete snapshots exercising all four cases
(id 1 removed, id 2 revised, id 3 unchanged, id 4 inserted), with the filter
characterization instantiated at id 2. -/
theorem table_delta_exactly_one_event_per_changed_id_witness :
    MWF (Table.mk [(1, TRow.mk 10 0), (2, TRow.mk 20 0), (3, TRow.mk 30 0)] 5).data ∧
    MWF (Table.mk [(2, TRow.mk 21 1), (3, TRow.mk 30 0), (4, TRow.mk 40 0)] 5).data ∧
    List.Pairwise (fun a b => a < b)
      (((Table.mk [(2, TRow.mk 21 1), (3, TRow.mk 30 0), (4, TRow.mk 40 0)] 5).delta
        (Table.mk [(1, TRow.mk 10 0), (2, TRow.mk 20 0), (3, TRow.mk 30 0)] 5)).map Delta.key) ∧
    (((Table.mk [(2, TRow.mk 21 1), (3, TRow.mk 30 0), (4, TRow.mk 40 0)] 5).delta
        (Table.mk [(1, TRow.mk 10 0), (2, TRow.mk 20 0), (3, TRow.mk 30 0)] 5)).filter
          (fun e => Delta.key e == 2)) =
      deltaEventAt
        (mfind? (Table.mk [(1, TRow.mk 10 0), (2, TRow.mk 20 0), (3, TRow.mk 30 0)] 5).data 2)
        (mfind? (Table.mk [(2, TRow.mk 21 1), (3, TRow.mk 30 0), (4, TRow.mk 40 0)] 5).data 2)
        2 :=
  ⟨by rw [MWF_nat_iff]; decide, by rw [MWF_nat_iff]; decide,
   (table_delta_exactly_one_event_per_changed_id
     (Table.mk [(2, TRow.mk 21 1), (3, TRow.mk 30 0), (4, TRow.mk 40 0)] 5)
     (Table.mk [(1, TRow.mk 10 0), (2, TRow.mk 20 0), (3, TRow.mk 30 0)] 5)
     (by rw [MWF_nat_iff]; decide) (by rw [MWF_nat_iff]; decide)).1,
   (table_delta_exactly_one_event_per_changed_id
     (Table.mk [(2, TRow.mk 21 1), (3, TRow.mk 30 0), (4, TRow.mk 40 0)] 5)
     (Table.mk [(1, TRow.mk 10 0), (2, TRow.mk 20 0), (3, TRow.mk 30 0)] 5)
     (by rw [MWF_nat_iff]; decide) (by rw [MWF_nat_iff]; decide)).2 2⟩


/-! ## C5: incremental join classification -/

theorem mem_deltaAux_insert (o n : OMap Nat (TRow α)) (ho : MWF o) (hn : MWF n)
    (t : Nat) (r : α) (h : Delta.Insert (t, r) ∈ deltaAux o n) :
    mfind? o t = none ∧ ∃ row, mfind? n t = some row ∧ row.data = r := by
  have hmem : Delta.Insert (t, r) ∈
      (deltaAux o n).filter (fun e => Delta.key e == t) :=
    List.mem_filter.mpr ⟨h, by simp [Delta.key]⟩
  rw [deltaAux_filterKey o n ho hn t] at hmem
  cases hfo : mfind? o t with
  | none =>
    cases hfn : mfind? n t with
    | none =>
      rw [hfo, hfn] at hmem
      simp [deltaEventAt] at hmem
    | some nv =>
      rw [hfo, hfn] at hmem
      simp only [deltaEventAt, List.mem_singleton, Delta.Insert.injEq, Prod.mk.injEq] at hmem
      exact ⟨rfl, nv, rfl, hmem.2.symm⟩
  | some ov =>
    cases hfn : mfind? n t with
    | none =>
      rw [hfo, hfn] at hmem
      simp [deltaEventAt] at hmem
    | some nv =>
      rw [hfo, hfn] at hmem
      by_cases hrev : ov.revision = nv.revision
      · simp [deltaEventAt, hrev] at hmem
      · simp [deltaEventAt, hrev] at hmem

theorem mem_deltaAux_remove (o n : OMap Nat (TRow α)) (ho : MWF o) (hn : MWF n)
    (t : Nat) (r : α) (h : Delta.Remove (t, r) ∈ deltaAux o n) :
    (∃ row, mfind? o t = some row ∧ row.data = r) ∧ mfind? n t = none := by
  have hmem : Delta.Remove (t, r) ∈
      (deltaAux o n).filter (fun e => Delta.key e == t) :=
    List.mem_filter.mpr ⟨h, by simp [Delta.key]⟩
  rw [deltaAux_filterKey o n ho hn t] at hmem
  cases hfo : mfind? o t with
  | none =>
    cases hfn : mfind? n t with
    | none =>
      rw [hfo, hfn] at hmem
      simp [deltaEventAt] at hmem
    | some nv =>
      rw [hfo, hfn] at hmem
      simp [deltaEventAt] at hmem
  | some ov =>
    cases hfn : mfind? n t with
    | none =>
      rw [hfo, hfn] at hmem
      simp only [deltaEventAt, List.mem_singleton, Delta.Remove.injEq, Prod.mk.injEq] at hmem
      exact ⟨⟨ov, rfl, hmem.2.symm⟩, rfl⟩
    | some nv =>
      rw [hfo, hfn] at hmem
      by_cases hrev : ov.revision = nv.revision
      · simp [deltaEventAt, hrev] at hmem
      · simp [deltaEventAt, hrev] at hmem

theorem mem_deltaAux_update (o n : OMap Nat (TRow α)) (ho : MWF o) (hn : MWF n)
    (t1 t2 : Nat) (r1 r2 : α) (h : Delta.Update (t1, r1) (t2, r2) ∈ deltaAux o n) :
    t2 = t1 ∧ (∃ ro, mfind? o t1 = some ro ∧ ro.data = r1) ∧
      (∃ rn, mfind? n t1 = some rn ∧ rn.data = r2) := by
  have hmem : Delta.Update (t1, r1) (t2, r2) ∈
      (deltaAux o n).filter (fun e => Delta.key e == t1) :=
    List.mem_filter.mpr ⟨h, by simp [Delta.key]⟩
  rw [deltaAux_filterKey o n ho hn t1] at hmem
  cases hfo : mfind? o t1 with
  | none =>
    cases hfn : mfind? n t1 with
    | none =>
      rw [hfo, hfn] at hmem
      simp [deltaEventAt] at hmem
    | some nv =>
      rw [hfo, hfn] at hmem
      simp [deltaEventAt] at hmem
  | some ov =>
    cases hfn : mfind? n t1 with
    | none =>
      rw [hfo, hfn] at hmem
      simp [deltaEventAt] at hmem
    | some nv =>
      rw [hfo, hfn] at hmem
      by_cases hrev : ov.revision = nv.revision
      · simp [deltaEventAt, hrev] at hmem
      · simp only [deltaEventAt, if_neg hrev, List.mem_singleton, Delta.Update.injEq,
          Prod.mk.injEq] at hmem
        exact ⟨hmem.2.1, ⟨ov, rfl, hmem.1.2.symm⟩, ⟨nv, rfl, hmem.2.2.symm⟩⟩

theorem joinClassify_eq_specClassify (db prev : JoinModel.DB)
    (hdb : MWF db.tracks.data) (hprev : MWF prev.tracks.data)
    (item : Nat × JoinModel.AlbumRow) (d : Delta (Nat × JoinModel.TrackRow))
    (hd : d ∈ db.tracks.delta prev.tracks) :
    JoinModel.joinClassify item d = JoinModel.specClassify db prev item (Delta.key d) := by
  rw [Table.delta] at hd
  cases d with
  | Insert v =>
    obtain ⟨t, r⟩ := v
    obtain ⟨hfo, rw1, hfn, hdata⟩ := mem_deltaAux_insert _ _ hprev hdb t r hd
    have hgo : Table.get prev.tracks t = none := by
      simp [Table.get, hfo]
    have hgn : Table.get db.tracks t = some r := by
      simp [Table.get, hfn, hdata]
    simp only [Delta.key, JoinModel.joinClassify, JoinModel.specClassify, hgo, hgn]
  | Remove v =>
    obtain ⟨t, r⟩ := v
    obtain ⟨⟨rw1, hfo, hdata⟩, hfn⟩ := mem_deltaAux_remove _ _ hprev hdb t r hd
    have hgo : Table.get prev.tracks t = some r := by
      simp [Table.get, hfo, hdata]
    have hgn : Table.get db.tracks t = none := by
      simp [Table.get, hfn]
    simp only [Delta.key, JoinModel.joinClassify, JoinModel.specClassify, hgo, hgn]
  | Update old new =>
    obtain ⟨t1, r1⟩ := old
    obtain ⟨t2, r2⟩ := new
    obtain ⟨ht21, ⟨ro, hfo, hdo⟩, ⟨rn, hfn, hdn⟩⟩ :=
      mem_deltaAux_update _ _ hprev hdb t1 t2 r1 r2 hd
    rw [ht21]
    have hgo : Table.get prev.tracks t1 = some r1 := by
      simp [Table.get, hfo, hdo]
    have hgn : Table.get db.tracks t1 = some r2 := by
      simp [Table.get, hfn, hdn]
    simp only [Delta.key, JoinModel.joinClassify, JoinModel.specClassify, hgo, hgn]
    cases h1 : JoinModel.relTrackAlbum_contains r1 item.1 <;>
      cases h2 : JoinModel.relTrackAlbum_contains r2 item.1 <;> simp

/-- C5: for every left tuple of the query over the current snapshot and every
delta of the destination table, `Join::delta` classifies the pair by whether
the destination row is related to the left tuple (via the relation's inverse
containment) in the old and in the new snapshot: absent-absent emits nothing,
absent-present emits `Insert`, present-absent emits `Remove`, present-present
emits `Update` — in particular a track moved between albums yields a `Remove`
paired with the old album and an `Insert` paired with the new album, never an
`Update`. -/
theorem join_delta_four_case_classification (db prev : JoinModel.DB)
    (hdb : MWF db.tracks.data) (hprev : MWF prev.tracks.data) :
    JoinModel.joinDelta db prev =
      db.albums.iterList.flatMap (fun item =>
        (db.tracks.delta prev.tracks).filterMap
          (fun d => JoinModel.specClassify db prev item (Delta.key d))) := by
  rw [JoinModel.joinDelta]
  refine congrArg _ ?_
  funext item
  refine List.filterMap_congr ?_
  intro d hd
  exact joinClassify_eq_specClassify db prev hdb hprev item d hd


/-- Witness for C5: the move-track scenario.  The incremental join reports
Track 10 leaving Album 1's result set (`Remove` paired with the old album and
the old row) and entering Album 2's (`Insert` paired with the new album and
the new row) — no `Update` — and the classification theorem applies. -/
theorem join_delta_four_case_classification_witness :
    JoinModel.joinDelta JoinModel.exampleNew JoinModel.exampleOld =
      [Delta.Remove ((1, JoinModel.AlbumRow.mk "A" []), (10, JoinModel.TrackRow.mk "T" 1)),
       Delta.Insert ((2, JoinModel.AlbumRow.mk "B" [10]), (10, JoinModel.TrackRow.mk "T" 2))] ∧
    JoinModel.joinDelta JoinModel.exampleNew JoinModel.exampleOld =
      JoinModel.exampleNew.albums.iterList.flatMap (fun item =>
        (JoinModel.exampleNew.tracks.delta JoinModel.exampleOld.tracks).filterMap
          (fun d => JoinModel.specClassify JoinModel.exampleNew JoinModel.exampleOld item
            (Delta.key d))) :=
  ⟨by
    simp [JoinModel.joinDelta, JoinModel.exampleNew, JoinModel.exampleOld, Table.delta,
      Table.iterList, JoinModel.joinClassify, JoinModel.relTrackAlbum_contains,
      JoinModel.relTrackAlbum_targets, deltaAux],
   join_delta_four_case_classification JoinModel.exampleNew JoinModel.exampleOld
     (by rw [MWF_nat_iff]; decide) (by rw [MWF_nat_iff]; decide)⟩


/-! ## C1: transitive cascade into a Deny rule fails atomically -/

/-- C1: for every store state and every entity whose deletion transitively
(through `Cascade` delete rules) reaches an entity protected by a `Deny` rule
with a referencing row, `remove` returns `RelationshipDeniedDelete` and leaves
the store structurally equal to its pre-call state, with no partial deletion:
here deleting a `Rack` cascades into its `Shelf`'s `Album`, which is
Deny-protected while the `Sleeve` references it, and the same holds one and
zero cascade hops down the chain. -/
theorem cascade_into_deny_fails_atomically (st : Gen.Store) (r : Nat)
    (rackRow : Gen.RackRow) (shelfRow : Gen.ShelfRow) (albumRow : Gen.AlbumRow)
    (sleeveRow : Gen.SleeveRow) (v : Nat)
    (hr : Gen.SlotMap.get? st.racks r = some rackRow)
    (hs : Gen.SlotMap.get? st.shelves rackRow.shelf = some shelfRow)
    (ha : Gen.SlotMap.get? st.albums shelfRow.album = some albumRow)
    (hsl : albumRow.sleeve = some v)
    (_hslv : Gen.SlotMap.get? st.sleeves v = some sleeveRow)
    (_hback : sleeveRow.album = some shelfRow.album) :
    Gen.removeRack st r = some (Except.error Gen.Error.RelationshipDeniedDelete, st) ∧
    Gen.removeShelf st rackRow.shelf =
      some (Except.error Gen.Error.RelationshipDeniedDelete, st) ∧
    Gen.removeAlbum st shelfRow.album =
      some (Except.error Gen.Error.RelationshipDeniedDelete, st) := by
  have hcheck : Gen.check_removeAlbum st shelfRow.album =
      some (Except.error Gen.Error.RelationshipDeniedDelete) := by
    simp [Gen.check_removeAlbum, ha, hsl, optIsEmpty]
  refine ⟨?_, ?_, ?_⟩
  · simp [Gen.removeRack, Gen.check_removeRack, Gen.check_removeShelf, hr, hs, hcheck]
  · simp [Gen.removeShelf, Gen.check_removeShelf, hs, hcheck]
  · simp [Gen.removeAlbum, hcheck]

/-- Witness for C1: a concrete store holding one rack on one shelf holding one
album referenced by one sleeve. -/
theorem cascade_into_deny_fails_atomically_witness :
    Gen.removeRack
      (Gen.Store.mk (Gen.SlotMap.mk [(0, Gen.RackRow.mk 0)] 1)
        (Gen.SlotMap.mk [(0, Gen.ShelfRow.mk [0] 0)] 1)
        (Gen.SlotMap.mk [(0, Gen.AlbumRow.mk [0] (some 0))] 1)
        (Gen.SlotMap.mk [(0, Gen.SleeveRow.mk (some 0))] 1)) 0 =
      some (Except.error Gen.Error.RelationshipDeniedDelete,
        Gen.Store.mk (Gen.SlotMap.mk [(0, Gen.RackRow.mk 0)] 1)
          (Gen.SlotMap.mk [(0, Gen.ShelfRow.mk [0] 0)] 1)
          (Gen.SlotMap.mk [(0, Gen.AlbumRow.mk [0] (some 0))] 1)
          (Gen.SlotMap.mk [(0, Gen.SleeveRow.mk (some 0))] 1)) :=
  (cascade_into_deny_fails_atomically
    (Gen.Store.mk (Gen.SlotMap.mk [(0, Gen.RackRow.mk 0)] 1)
      (Gen.SlotMap.mk [(0, Gen.ShelfRow.mk [0] 0)] 1)
      (Gen.SlotMap.mk [(0, Gen.AlbumRow.mk [0] (some 0))] 1)
      (Gen.SlotMap.mk [(0, Gen.SleeveRow.mk (some 0))] 1)) 0
    (Gen.RackRow.mk 0) (Gen.ShelfRow.mk [0] 0) (Gen.AlbumRow.mk [0] (some 0))
    (Gen.SleeveRow.mk (some 0)) 0
    (by decide) (by decide) (by decide) (by decide) (by decide) (by decide)).1

/-! ## C8: inverse-side multiplicity check on insert -/

/-- C8: inserting a row whose present optional foreign key targets a
destination whose inverse relation field has multiplicity `ZeroOrOne` fails
with `RelationshipTooManyTargets` and leaves the store unchanged when that
inverse field is already occupied, and passes the multiplicity check when it is
unoccupied; an inverse field of multiplicity `Many` (a `Vec`, whose
`RelOps::is_full` is constantly false) always passes.  (A required `One`
foreign key with a `ZeroOrOne` inverse cannot occur: the macro rejects any
schema containing the mirror `(ZeroOrOne | One, One)` relation,
store.rs:314-319.) -/
theorem insert_checks_inverse_multiplicity (st : Gen.Store) :
    (∀ (a : Gen.AlbumRow) (d : Nat) (sleeveRow : Gen.SleeveRow),
      a.sleeve = some d → Gen.SlotMap.get? st.sleeves d = some sleeveRow →
      (sleeveRow.album.isSome = true →
        Gen.insertAlbum st a =
          some (Except.error Gen.Error.RelationshipTooManyTargets, st)) ∧
      (sleeveRow.album = none →
        ∃ st2, Gen.insertAlbum st a = some (Except.ok st.albums.next, st2))) ∧
    (∀ (r : Gen.RackRow) (shelfRow : Gen.ShelfRow),
      Gen.SlotMap.get? st.shelves r.shelf = some shelfRow →
      ∃ st2, Gen.insertRack st r = some (Except.ok st.racks.next, st2)) := by
  constructor
  · intro a d sleeveRow hsl hget
    constructor
    · intro hfull
      simp [Gen.insertAlbum, hsl, hget, optIsFull, hfull]
    · intro hnone
      refine ⟨{ st with
        albums := Gen.SlotMap.mk (minsert st.albums.map st.albums.next a) (st.albums.next + 1),
        sleeves := Gen.SlotMap.set st.sleeves d
          ({ sleeveRow with album := optInsert sleeveRow.album st.albums.next }) }, ?_⟩
      simp [Gen.insertAlbum, hsl, hget, optIsFull, hnone, Gen.SlotMap.insert]
  · intro r shelfRow hget
    refine ⟨{ st with
      racks := Gen.SlotMap.mk (minsert st.racks.map st.racks.next r) (st.racks.next + 1),
      shelves := Gen.SlotMap.set st.shelves r.shelf
        ({ shelfRow with racks := vecInsert shelfRow.racks st.racks.next }) }, ?_⟩
    simp [Gen.insertRack, hget, vecIsFull, Gen.SlotMap.insert]

/-- Witness for C8: one sleeve already referencing an album (occupied), one
free sleeve, and a shelf with a `Many` inverse. -/
theorem insert_checks_inverse_multiplicity_witness :
    Gen.insertAlbum
      (Gen.Store.mk (Gen.SlotMap.mk [] 0) (Gen.SlotMap.mk [(0, Gen.ShelfRow.mk [] 7)] 1)
        (Gen.SlotMap.mk [(7, Gen.AlbumRow.mk [] none)] 8)
        (Gen.SlotMap.mk [(0, Gen.SleeveRow.mk (some 7)), (1, Gen.SleeveRow.mk none)] 2))
      (Gen.AlbumRow.mk [] (some 0)) =
      some (Except.error Gen.Error.RelationshipTooManyTargets,
        Gen.Store.mk (Gen.SlotMap.mk [] 0) (Gen.SlotMap.mk [(0, Gen.ShelfRow.mk [] 7)] 1)
          (Gen.SlotMap.mk [(7, Gen.AlbumRow.mk [] none)] 8)
          (Gen.SlotMap.mk [(0, Gen.SleeveRow.mk (some 7)), (1, Gen.SleeveRow.mk none)] 2)) ∧
    (∃ st2,
      Gen.insertAlbum
        (Gen.Store.mk (Gen.SlotMap.mk [] 0) (Gen.SlotMap.mk [(0, Gen.ShelfRow.mk [] 7)] 1)
          (Gen.SlotMap.mk [(7, Gen.AlbumRow.mk [] none)] 8)
          (Gen.SlotMap.mk [(0, Gen.SleeveRow.mk (some 7)), (1, Gen.SleeveRow.mk none)] 2))
        (Gen.AlbumRow.mk [] (some 1)) = some (Except.ok 8, st2)) ∧
    (∃ st2,
      Gen.insertRack
        (Gen.Store.mk (Gen.SlotMap.mk [] 0) (Gen.SlotMap.mk [(0, Gen.ShelfRow.mk [] 7)] 1)
          (Gen.SlotMap.mk [(7, Gen.AlbumRow.mk [] none)] 8)
          (Gen.SlotMap.mk [(0, Gen.SleeveRow.mk (some 7)), (1, Gen.SleeveRow.mk none)] 2))
        (Gen.RackRow.mk 0) = some (Except.ok 0, st2)) :=
  ⟨((insert_checks_inverse_multiplicity _).1 (Gen.AlbumRow.mk [] (some 0)) 0
      (Gen.SleeveRow.mk (some 7)) (by decide) (by decide)).1 (by decide),
   ((insert_checks_inverse_multiplicity _).1 (Gen.AlbumRow.mk [] (some 1)) 1
      (Gen.SleeveRow.mk none) (by decide) (by decide)).2 (by decide),
   (insert_checks_inverse_multiplicity _).2 (Gen.RackRow.mk 0)
      (Gen.ShelfRow.mk [] 7) (by decide)⟩


/-! ## C6: `ChangeSet::since` -/

theorem rposition_none_forall (p : α → Bool) (l : List α)
    (h : TestStore.rposition p l = none) : ∀ x ∈ l, p x = false := by
  induction l with
  | nil => intro x hx; cases hx
  | cons c rest ih =>
    intro x hx
    rw [TestStore.rposition] at h
    cases hr : TestStore.rposition p rest with
    | some i => rw [hr] at h; cases h
    | none =>
      rw [hr] at h
      by_cases hc : p c = true
      · rw [if_pos hc] at h; cases h
      · rcases List.mem_cons.mp hx with rfl | hx2
        · simpa using hc
        · exact ih hr x hx2

theorem rposition_some_exists (p : α → Bool) (l : List α) (i : Nat)
    (h : TestStore.rposition p l = some i) : ∃ x ∈ l, p x = true := by
  induction l generalizing i with
  | nil => cases h
  | cons c rest ih =>
    rw [TestStore.rposition] at h
    cases hr : TestStore.rposition p rest with
    | some j =>
      obtain ⟨x, hx, hpx⟩ := ih j hr
      exact ⟨x, List.mem_cons_of_mem _ hx, hpx⟩
    | none =>
      rw [hr] at h
      by_cases hc : p c = true
      · exact ⟨c, List.mem_cons_self _ _, hc⟩
      · rw [if_neg hc] at h; cases h

theorem since_aux (l : List TestStore.Change) (t : Nat)
    (h : List.Pairwise (fun a b : TestStore.Change => a.timestamp ≤ b.timestamp) l) :
    TestStore.ChangeSet.since ⟨l⟩ t =
      (l.filter (fun c => decide (t ≤ c.timestamp))).map TestStore.Change.kind := by
  induction l with
  | nil => rfl
  | cons c rest ih =>
    rw [List.pairwise_cons] at h
    rw [TestStore.ChangeSet.since]
    simp only
    rw [TestStore.rposition]
    cases hr : TestStore.rposition (fun c => decide (c.timestamp < t)) rest with
    | some i =>
      obtain ⟨x, hx, hpx⟩ := rposition_some_exists _ rest i hr
      have hxt : x.timestamp < t := by simpa using hpx
      have hct : c.timestamp < t := Nat.lt_of_le_of_lt (h.1 x hx) hxt
      have hfc : (decide (t ≤ c.timestamp)) = false := by
        simp only [decide_eq_false_iff_not]
        omega
      rw [List.filter_cons, hfc]
      simp only [Bool.false_eq_true, if_false, List.drop_succ_cons]
      have hih := ih h.2
      rw [TestStore.ChangeSet.since, hr] at hih
      simpa using hih
    | none =>
      have hall := rposition_none_forall _ rest hr
      by_cases hc : c.timestamp < t
      · rw [if_pos (by simpa using hc)]
        simp only [List.drop_succ_cons, List.drop_zero]
        have hfc : (decide (t ≤ c.timestamp)) = false := by
          simp only [decide_eq_false_iff_not]
          omega
        rw [List.filter_cons, hfc]
        simp only [Bool.false_eq_true, if_false]
        have hrest : rest.filter (fun c => decide (t ≤ c.timestamp)) = rest := by
          refine List.filter_eq_self.mpr ?_
          intro x hx
          have := hall x hx
          simp only [decide_eq_false_iff_not] at this
          simp only [decide_eq_true_eq]
          omega
        rw [hrest]
      · rw [if_neg (by simpa using hc)]
        simp only [List.drop_zero]
        have hfc : (decide (t ≤ c.timestamp)) = true := by
          simp only [decide_eq_true_eq]
          omega
        rw [List.filter_cons, hfc]
        simp only [if_true, List.map_cons]
        have hrest : rest.filter (fun c => decide (t ≤ c.timestamp)) = rest := by
          refine List.filter_eq_self.mpr ?_
          intro x hx
          have := hall x hx
          simp only [decide_eq_false_iff_not] at this
          simp only [decide_eq_true_eq]
          omega
        rw [hrest]

/-- C6: assuming every push used a timestamp greater than or equal to all
previously pushed timestamps (the log's timestamps are non-decreasing),
`ChangeSet::since(t)` returns exactly the events whose timestamp is `>= t`,
in the original push order. -/
theorem changeset_since_returns_all_events_at_or_after (cs : TestStore.ChangeSet) (t : Nat)
    (h : List.Pairwise (fun a b : TestStore.Change => a.timestamp ≤ b.timestamp) cs.changes) :
    cs.since t =
      (cs.changes.filter (fun c => decide (t ≤ c.timestamp))).map TestStore.Change.kind := by
  obtain ⟨l⟩ := cs
  exact since_aux l t h

/-- Witness for C6 on a concrete log with a repeated timestamp. -/
theorem changeset_since_returns_all_events_at_or_after_witness :
    TestStore.ChangeSet.since
      ⟨[TestStore.Change.mk 0 (TestStore.ChangeKind.Artist_Inserted 1),
        TestStore.Change.mk 1 (TestStore.ChangeKind.Album_Inserted 1),
        TestStore.Change.mk 1 (TestStore.ChangeKind.Track_Inserted 1),
        TestStore.Change.mk 2 (TestStore.ChangeKind.Track_Removed 1)]⟩ 1 =
      (([TestStore.Change.mk 0 (TestStore.ChangeKind.Artist_Inserted 1),
        TestStore.Change.mk 1 (TestStore.ChangeKind.Album_Inserted 1),
        TestStore.Change.mk 1 (TestStore.ChangeKind.Track_Inserted 1),
        TestStore.Change.mk 2 (TestStore.ChangeKind.Track_Removed 1)] :
          List TestStore.Change).filter
        (fun c => decide (1 ≤ c.timestamp))).map TestStore.Change.kind :=
  changeset_since_returns_all_events_at_or_after
    ⟨[TestStore.Change.mk 0 (TestStore.ChangeKind.Artist_Inserted 1),
      TestStore.Change.mk 1 (TestStore.ChangeKind.Album_Inserted 1),
      TestStore.Change.mk 1 (TestStore.ChangeKind.Track_Inserted 1),
      TestStore.Change.mk 2 (TestStore.ChangeKind.Track_Removed 1)]⟩ 1 (by decide)


/-! ## C3: foreign-key validation -/

/-- C3 counterexample: the direct foreign-key setter `set_album` performs no
destination check — retargeting track 1 to the nonexistent album 99 succeeds
instead of failing with `ForeignKeyViolation` (and it also mutates the row and
the fk index). -/
theorem fk_setter_skips_validation_counterexample :
    mcontains TestStore.exampleDb.pk_Album 99 = false ∧
    TestStore.Track.set_album 1 TestStore.exampleDb 99 ≠
      Except.error TestStore.Error.ForeignKeyViolation ∧
    (match TestStore.Track.set_album 1 TestStore.exampleDb 99 with
     | Except.ok db2 => mcontains db2.fk_Track_album (99, 1)
     | Except.error _ => false) = true :=
  ⟨by decide, by decide, by decide⟩

/-- C3 (amended): every insert whose row references a destination id with no
live row — a required foreign key, or a nullable foreign key that is present —
fails with `ForeignKeyViolation` with the store completely untouched; an update
whose delete-then-insert path produces such a row also fails with
`ForeignKeyViolation`, but its delete phase has already been applied, so the
store is left in the post-delete state; the direct foreign-key setters perform
no destination validation and succeed on any live source row. -/
theorem inserts_validate_fks_setters_do_not (db : TestStore.DbStore4) :
    (∀ f : Nat → TestStore.Track,
      mcontains db.pk_Track (f (db.Track_next_id + 1)).id = false →
      mcontains db.pk_Album (f (db.Track_next_id + 1)).album = false →
      TestStore.Track.insert db f = (Except.error TestStore.Error.ForeignKeyViolation, db)) ∧
    (∀ (f : Nat → TestStore.Album) (r : Nat),
      mcontains db.pk_Album (f (db.Album_next_id + 1)).id = false →
      (f (db.Album_next_id + 1)).album_artist = some r →
      mcontains db.pk_Artist r = false →
      TestStore.Album.insert db f = (Except.error TestStore.Error.ForeignKeyViolation, db)) ∧
    (∀ (key : Nat) (f : TestStore.Track → TestStore.Track)
        (val : TestStore.Track) (db2 : TestStore.DbStore4),
      TestStore.Track.delete db key = some (Except.ok val, db2) →
      mcontains db2.pk_Track (f val).id = false →
      mcontains db2.pk_Album (f val).album = false →
      TestStore.Track.update db key f =
        some (Except.error TestStore.Error.ForeignKeyViolation, db2)) ∧
    (∀ (selfId album : Nat) (ckey : Nat × Nat) (val : TestStore.Track),
      mfind? db.pk_Track selfId = some ckey →
      mfind? db.clustered_Track ckey = some val →
      ∃ db2, TestStore.Track.set_album selfId db album = Except.ok db2) := by
  refine ⟨?_, ?_, ?_, ?_⟩
  · intro f h1 h2
    simp [TestStore.Track.insert, TestStore.Track.before_insert, h1, h2]
  · intro f r h1 h2 h3
    simp [TestStore.Album.insert, TestStore.Album.before_insert, h1, h2, h3]
  · intro key f val db2 hdel h1 h2
    rw [TestStore.Track.update, hdel]
    simp [TestStore.Track.insert, TestStore.Track.before_insert, h1, h2]
  · intro selfId album ckey val h1 h2
    refine ⟨{ db with
      clustered_Track := minsert db.clustered_Track ckey ({ val with album := album }),
      fk_Track_album :=
        minsert (merase db.fk_Track_album (val.album, selfId)) (album, selfId) (),
      changes := (db.changes.push db.timestamp
          (TestStore.ChangeKind.Track_album_Removed selfId val.album)).push db.timestamp
          (TestStore.ChangeKind.Track_album_Inserted selfId album) }, ?_⟩
    simp only [TestStore.Track.set_album, h1, h2]

/-- Witness for C3's amended theorem: a dangling-album insert, a
dangling-artist album insert, an update retargeting track 1 to the nonexistent
album 99, and the unvalidated setter, all on the example store. -/
theorem inserts_validate_fks_setters_do_not_witness :
    TestStore.Track.insert TestStore.exampleDb (fun id => TestStore.Track.mk id "u" 99 1) =
      (Except.error TestStore.Error.ForeignKeyViolation, TestStore.exampleDb) ∧
    TestStore.Album.insert TestStore.exampleDb
      (fun id => TestStore.Album.mk id "y" 0 (some 99)) =
      (Except.error TestStore.Error.ForeignKeyViolation, TestStore.exampleDb) ∧
    TestStore.Track.update TestStore.exampleDb 1 (fun tr => { tr with album := 99 }) =
      some (Except.error TestStore.Error.ForeignKeyViolation, TestStore.examplePostDelete) ∧
    (∃ db2, TestStore.Track.set_album 1 TestStore.exampleDb 99 = Except.ok db2) :=
  ⟨(inserts_validate_fks_setters_do_not TestStore.exampleDb).1
     (fun id => TestStore.Track.mk id "u" 99 1) (by decide) (by decide),
   (inserts_validate_fks_setters_do_not TestStore.exampleDb).2.1
     (fun id => TestStore.Album.mk id "y" 0 (some 99)) 99 (by decide) (by decide) (by decide),
   (inserts_validate_fks_setters_do_not TestStore.exampleDb).2.2.1 1
     (fun tr => { tr with album := 99 }) (TestStore.Track.mk 1 "t" 1 1)
     TestStore.examplePostDelete (by decide) (by decide) (by decide),
   (inserts_validate_fks_setters_do_not TestStore.exampleDb).2.2.2 1 99 (1, 1)
     (TestStore.Track.mk 1 "t" 1 1) (by decide) (by decide)⟩

/-! ## C2: fk-index / row consistency -/

/-- C2 (the code violates it): the nullify step of `Artist::delete_inner`
clears `album_artist` on referencing albums but — per the source's own
`// TODO update index` — does not remove the `fk_Album_album_artist` entries.
After `Artist::update` on artist 1 (delete, nullify, reinsert of the same pk)
the operation completes successfully, artist 1 is live again, the index still
records album 1 as a source for artist 1, yet album 1's `album_artist` field is
`none` — the index and the live rows disagree for a live destination entity. -/
theorem fk_index_desync_after_nullify :
    TestStore.Artist.update TestStore.exampleDb 1 (fun a => a) =
      some (Except.ok (), TestStore.exampleAfterArtistUpdate) ∧
    mcontains TestStore.exampleAfterArtistUpdate.pk_Artist 1 = true ∧
    mcontains TestStore.exampleAfterArtistUpdate.fk_Album_album_artist (1, 1) = true ∧
    mfind? TestStore.exampleAfterArtistUpdate.pk_Album 1 =
      some (TestStore.Album.mk 1 "x" 2000 none) :=
  ⟨by decide, by decide, by decide, by decide⟩

end KyuuDB
